import Mathlib

/-! ollama-operator: the Model reconciler

A shallow embedding of `internal/controller/model_controller.go` and
`internal/controller/pod.go` together with the API types of `api/v1alpha1`.

Go pointers that may be nil are `Option`s, slices are `List`s (a nil slice and an
empty slice are both `[]`, which is how `equality.Semantic.DeepEqual` treats them),
`map[string]string` is the list of its entries in key order, so that equality of
two representations is the semantic equality of the maps.  A Go `error` result is
an `Option Err` (`none` is `nil`).  Methods that mutate the object behind a pointer
return the mutated object next to their result.

The API server behind `client.Client` is the explicit state `Store`.
-/

set_option linter.dupNamespace false

namespace OllamaOperator

/-! ## Errors -/

/-- The errors of the store boundary, as far as the controller tells them apart:
`apierrors.IsNotFound` is the only classification it ever makes. -/
inductive Err where
  | notFound
  | alreadyExists
  | other (reason : String)
deriving DecidableEq, Repr

/-- `apierrors.IsNotFound`. -/
def IsNotFound : Err → Bool
  | .notFound => true
  | _ => false

/-- `client.IgnoreNotFound`: nil for a not-found error, the error itself otherwise. -/
def IgnoreNotFound (e : Err) : Option Err :=
  if IsNotFound e then none else some e

/-! ## API types (`api/v1alpha1`, and the parts of `corev1`/`metav1` the controller touches) -/

/-- `ModelFinalizer` of `model_types.go`. -/
def ModelFinalizer : String := "sivchari.io/model"

/-- `client.ObjectKey` (`types.NamespacedName`). -/
structure ObjectKey where
  Namespace : String
  Name : String
deriving DecidableEq, Repr

/-- `ctrl.Request`. -/
structure Request where
  NamespacedName : ObjectKey
deriving DecidableEq, Repr

/-- `corev1.ObjectReference`, the two fields the controller sets. -/
structure ObjectReference where
  Name : String
  Namespace : String
deriving DecidableEq, Repr

/-- `metav1.OwnerReference`. -/
structure OwnerReference where
  APIVersion : String
  Kind : String
  Name : String
  UID : String
deriving DecidableEq, Repr

/-- `v1alpha1.ObjectMeta` of `common_types.go`. -/
structure ObjectMeta where
  Labels : List (String × String)
  Annotations : List (String × String)
deriving DecidableEq, Repr

/-- `corev1.VolumeMount`; the controller only copies it. -/
structure VolumeMount where
  Name : String
  MountPath : String
deriving DecidableEq, Repr

/-- `corev1.Volume`; the controller only copies it. -/
structure Volume where
  Name : String
  Source : String
deriving DecidableEq, Repr

/-- `corev1.Affinity`; the controller only copies the pointer. -/
structure Affinity where
  Rules : String
deriving DecidableEq, Repr

/-- `corev1.Toleration`; the controller only copies it. -/
structure Toleration where
  Key : String
  Effect : String
deriving DecidableEq, Repr

/-- `corev1.TopologySpreadConstraint`; the controller only copies it. -/
structure TopologySpreadConstraint where
  TopologyKey : String
  WhenUnsatisfiable : String
deriving DecidableEq, Repr

/-- `ModelTemplateSpec` of `model_types.go`. -/
structure ModelTemplateSpec where
  VolumeMounts : List VolumeMount
  Volumes : List Volume
  NodeSelector : List (String × String)
  Affinity : Option Affinity
  Tolerations : List Toleration
  TopologySpreadConstraints : List TopologySpreadConstraint
deriving DecidableEq, Repr

/-- `ModelTemplate` of `model_types.go`. -/
structure ModelTemplate where
  Metadata : Option ObjectMeta
  Spec : Option ModelTemplateSpec
deriving DecidableEq, Repr

/-- `ModelSpec` of `model_types.go`. -/
structure ModelSpec where
  Images : List String
  Paused : Option Bool
  Template : Option ModelTemplate
deriving DecidableEq, Repr

/-- `ModelStatus` of `model_types.go`. -/
structure ModelStatus where
  PodRef : Option ObjectReference
deriving DecidableEq, Repr

/-- `Model` of `model_types.go`, with the fields of the embedded `metav1.ObjectMeta`
that the controller reads or writes.  `DeletionTimestamp` is `none` for the zero
time. -/
structure Model where
  Namespace : String
  Name : String
  UID : String
  DeletionTimestamp : Option Nat
  Finalizers : List String
  Spec : ModelSpec
  Status : ModelStatus
deriving DecidableEq, Repr

/-- `corev1.ContainerPort`. -/
structure ContainerPort where
  Name : String
  ContainerPort : Nat
  Protocol : String
deriving DecidableEq, Repr

/-- `corev1.EnvVar`. -/
structure EnvVar where
  Name : String
  Value : String
deriving DecidableEq, Repr

/-- `corev1.ExecAction`. -/
structure ExecAction where
  Command : List String
deriving DecidableEq, Repr

/-- `corev1.LifecycleHandler`. -/
structure LifecycleHandler where
  Exec : Option ExecAction
deriving DecidableEq, Repr

/-- `corev1.Lifecycle`. -/
structure Lifecycle where
  PostStart : Option LifecycleHandler
deriving DecidableEq, Repr

/-- `corev1.Container`, the fields `modelToPod` sets. -/
structure Container where
  Name : String
  Image : String
  Ports : List ContainerPort
  VolumeMounts : List VolumeMount
  Env : List EnvVar
  Args : List String
  Lifecycle : Option Lifecycle
deriving DecidableEq, Repr

/-- `corev1.PodSpec`, the fields `modelToPod` sets. -/
structure PodSpec where
  Volumes : List Volume
  NodeSelector : List (String × String)
  Affinity : Option Affinity
  Tolerations : List Toleration
  TopologySpreadConstraints : List TopologySpreadConstraint
  Containers : List Container
deriving DecidableEq, Repr

/-- `corev1.Pod`. -/
structure Pod where
  Namespace : String
  Name : String
  GenerateName : String
  OwnerReferences : List OwnerReference
  Labels : List (String × String)
  Annotations : List (String × String)
  Spec : PodSpec
deriving DecidableEq, Repr

/-- The zero value `corev1.PodSpec{}`. -/
def PodSpec.empty : PodSpec :=
  { Volumes := [], NodeSelector := [], Affinity := none, Tolerations := [],
    TopologySpreadConstraints := [], Containers := [] }

/-- The zero value `&corev1.Pod{}`. -/
def Pod.empty : Pod :=
  { Namespace := "", Name := "", GenerateName := "", OwnerReferences := [],
    Labels := [], Annotations := [], Spec := PodSpec.empty }

/-- `schema.GroupVersionKind`, with the group and version already joined as
`GroupVersion().String()` gives them. -/
structure GroupVersionKind where
  APIVersion : String
  Kind : String
deriving DecidableEq, Repr

/-- `runtime.Scheme` as the reconciler uses it: the registry in which
`SchemeBuilder.Register(&Model{}, &ModelList{})` (`init` of `model_types.go`) has
entered `Model`.  `groupversion_info.go` is not among the sources, so the
group-version-kind it resolves `Model` to is a parameter. -/
structure Scheme where
  ModelGVK : GroupVersionKind
deriving DecidableEq, Repr

/-- `ModelReconciler`; the embedded `client.Client` is the `Store` that every
method takes and returns. -/
structure ModelReconciler where
  Scheme : Scheme
  OllamaContainerImage : String
deriving DecidableEq, Repr

/-! ## `controllerutil` -/

/-- `controllerutil.ContainsFinalizer`. -/
def ContainsFinalizer (o : Model) (finalizer : String) : Bool :=
  o.Finalizers.any (fun f => f == finalizer)

/-- `controllerutil.AddFinalizer`: appends unless already there. -/
def AddFinalizer (o : Model) (finalizer : String) : Model :=
  if o.Finalizers.any (fun f => f == finalizer) then o
  else { o with Finalizers := o.Finalizers ++ [finalizer] }

/-- `controllerutil.RemoveFinalizer`: drops every occurrence. -/
def RemoveFinalizer (o : Model) (finalizer : String) : Model :=
  { o with Finalizers := o.Finalizers.filter (fun f => f != finalizer) }

/-- `validateOwner` of `controllerutil`: a namespaced owner needs an object in the
same namespace. -/
def validateOwner (owner : Model) (object : Pod) : Option Err :=
  if owner.Namespace ≠ "" then
    if object.Namespace = "" then
      some (.other "cluster-scoped resource must not have a namespace-scoped owner")
    else if owner.Namespace ≠ object.Namespace then
      some (.other "cross-namespace owner references are disallowed")
    else none
  else none

/-- `upsertOwnerRef` of `controllerutil`: replaces the reference to the same kind
and name if there is one, appends otherwise. -/
def upsertOwnerRef (ref : OwnerReference) (owners : List OwnerReference) :
    List OwnerReference :=
  if owners.any (fun o => o.APIVersion == ref.APIVersion && o.Kind == ref.Kind
      && o.Name == ref.Name) then
    owners.map (fun o => if o.APIVersion == ref.APIVersion && o.Kind == ref.Kind
      && o.Name == ref.Name then ref else o)
  else owners ++ [ref]

/-- `controllerutil.SetOwnerReference(owner, object, scheme)`. -/
def SetOwnerReference (owner : Model) (object : Pod) (scheme : Scheme) :
    Option Err × Pod :=
  match validateOwner owner object with
  | some e => (some e, object)
  | none =>
    let ref : OwnerReference :=
      { APIVersion := scheme.ModelGVK.APIVersion, Kind := scheme.ModelGVK.Kind,
        Name := owner.Name, UID := owner.UID }
    (none, { object with OwnerReferences := upsertOwnerRef ref object.OwnerReferences })

/-! ## The post-start template -/

/-- A node of a parsed `text/template`: literal text, the action that prints the
dot, and a `range` over the `Images` field of the input. -/
inductive TemplateNode where
  | text (s : String)
  | dot
  | rangeImages (body : List TemplateNode)
deriving Repr

/-- `PostStartInput`. -/
structure PostStartInput where
  Images : List String
deriving DecidableEq, Repr

/-- Executing the nodes of a `range` body with the dot bound to one element. -/
def executeBody (dot : String) : List TemplateNode → String
  | [] => ""
  | .text s :: rest => s ++ executeBody dot rest
  | .dot :: rest => dot ++ executeBody dot rest
  | .rangeImages _ :: rest => executeBody dot rest

/-- Executing a `range`: the body once per element, in order, appended to the buffer. -/
def executeRange (body : List TemplateNode) : List String → String
  | [] => ""
  | i :: rest => executeBody i body ++ executeRange body rest

/-- `tmpl.Execute(&buf, input)` followed by `buf.String()`. -/
def execute (input : PostStartInput) : List TemplateNode → String
  | [] => ""
  | .text s :: rest => s ++ execute input rest
  | .dot :: rest => execute input rest
  | .rangeImages body :: rest => executeRange body input.Images ++ execute input rest

/-- Modelled from the spec: the constant `postStartScript` (its file is not among the
sources), the template of "a shell command that sequentially fetches every listed
image identifier ... each terminated by a fixed delimiter"; the controller test
expects `ollama pull llama3;` for the single image `llama3`. -/
def postStartScript : List TemplateNode :=
  [.rangeImages [.text "ollama pull ", .dot, .text ";"]]

/-! ## `pod.go`: the renderer -/

/-- `ModelReconciler.modelToPod`: mutates `pod` in place; returns the mutated Pod. -/
def modelToPod (r : ModelReconciler) (model : Model) (pod : Pod) : Pod :=
  let image := if r.OllamaContainerImage ≠ "" then r.OllamaContainerImage
    else "ollama/ollama:latest"
  let buf := execute { Images := model.Spec.Images } postStartScript
  let pod1 : Pod :=
    match model.Spec.Template with
    | some t =>
      match t.Metadata with
      | some md => { pod with Labels := md.Labels, Annotations := md.Annotations }
      | none => pod
    | none => pod
  let tspec : Option ModelTemplateSpec :=
    match model.Spec.Template with
    | some t => t.Spec
    | none => none
  let spec1 : PodSpec :=
    match tspec with
    | some ts =>
      { pod1.Spec with
        Volumes := ts.Volumes
        NodeSelector := ts.NodeSelector
        Affinity := ts.Affinity
        Tolerations := ts.Tolerations
        TopologySpreadConstraints := ts.TopologySpreadConstraints }
    | none => pod1.Spec
  let volumeMounts : List VolumeMount :=
    match tspec with
    | some ts => ts.VolumeMounts
    | none => []
  { pod1 with
    Spec :=
      { spec1 with
        Containers :=
          [ { Name := "ollama-server"
              Image := image
              Ports := [ { Name := "ollama-server", ContainerPort := 11434, Protocol := "TCP" } ]
              VolumeMounts := volumeMounts
              Env := [ { Name := "OLLAMA_HOST", Value := "0.0.0.0:11434" } ]
              Args := ["serve"]
              Lifecycle := some (Lifecycle.mk (some (LifecycleHandler.mk (some
                (ExecAction.mk ["/bin/sh", "-c", buf]))))) } ] } }

/-- `equality.Semantic.DeepEqual` on two `corev1.PodSpec` values. -/
def SemanticDeepEqual (a b : PodSpec) : Bool := decide (a = b)

/-! ## `model_controller.go`: the watch mapper -/

/-- `podToModel`; `groupVersion` is `ollamav1alpha1.GroupVersion.String()`, whose
declaration is not among the sources. -/
def podToModel (groupVersion : String) (pod : Pod) : List Request :=
  if pod.OwnerReferences.length = 0 then []
  else
    pod.OwnerReferences.foldl
      (fun requests ownerRef =>
        if ownerRef.Kind ≠ "Model" ∧ ownerRef.APIVersion ≠ groupVersion then requests
        else requests ++ [Request.mk (ObjectKey.mk pod.Namespace ownerRef.Name)])
      []

/-! ## The store boundary

The API server that `client.Client` talks to.  It holds the Models and the Pods,
answers each call from its contents, and keeps a log of the calls it received.
Any call can fail for reasons of the server's own (conflict, transport): for each
operation `Faults` holds the queue of outcomes the next calls of that operation
will meet, `none` or an exhausted queue meaning that the call is answered from
the contents.  A failed call changes nothing but the log. -/

/-- A call on the store, with the object it was given. -/
inductive Call where
  | getModel (key : ObjectKey)
  | getPod (key : ObjectKey)
  | createPod (pod : Pod)
  | deletePod (pod : Pod)
  | updateModel (model : Model)
  | patchStatus (obj : Model) (base : Model)
  | patchModel (obj : Model) (base : Model)
deriving DecidableEq, Repr

/-- A logged call and the error it returned. -/
structure Event where
  call : Call
  err : Option Err
deriving DecidableEq, Repr

/-- The injected outcomes, one queue per operation. -/
structure Faults where
  getModel : List (Option Err)
  getPod : List (Option Err)
  createPod : List (Option Err)
  deletePod : List (Option Err)
  updateModel : List (Option Err)
  patchStatus : List (Option Err)
  patchModel : List (Option Err)
deriving DecidableEq, Repr

/-- No injected outcome at all. -/
def Faults.none : Faults :=
  { getModel := [], getPod := [], createPod := [], deletePod := [], updateModel := [],
    patchStatus := [], patchModel := [] }

/-- The state of the API server. `nextSuffix` feeds the names generated from
`generateName`. -/
structure Store where
  models : List Model
  pods : List Pod
  nextSuffix : Nat
  faults : Faults
  log : List Event
deriving DecidableEq, Repr

/-- The zero value `&ollamav1alpha1.Model{}`. -/
def Model.empty : Model :=
  { Namespace := "", Name := "", UID := "", DeletionTimestamp := none, Finalizers := [],
    Spec := { Images := [], Paused := none, Template := none },
    Status := { PodRef := none } }

/-- The outcome at the head of a queue. -/
def nextFault (q : List (Option Err)) : Option Err := q.head?.join

/-- Whether the Pod is the one stored under the key. -/
def Pod.hasKey (p : Pod) (key : ObjectKey) : Bool :=
  p.Namespace == key.Namespace && p.Name == key.Name

/-- Whether the Model is the one stored under the key. -/
def Model.hasKey (m : Model) (key : ObjectKey) : Bool :=
  m.Namespace == key.Namespace && m.Name == key.Name

/-- Appends a call and its outcome to the log. -/
def Store.record (s : Store) (c : Call) (e : Option Err) : Store :=
  { s with log := s.log ++ [{ call := c, err := e }] }

/-- The Pod stored under the key, if any. -/
def Store.podAt (s : Store) (key : ObjectKey) : Option Pod :=
  s.pods.find? (fun p => p.hasKey key)

/-- The Model stored under the key, if any. -/
def Store.modelAt (s : Store) (key : ObjectKey) : Option Model :=
  s.models.find? (fun m => m.hasKey key)

/-- Whether a Pod is stored under the key. -/
def Store.holdsPod (s : Store) (key : ObjectKey) : Bool :=
  s.pods.any (fun p => p.hasKey key)

/-- The key of a Pod. -/
def Pod.key (p : Pod) : ObjectKey := { Namespace := p.Namespace, Name := p.Name }

/-- The key of a Model. -/
def Model.key (m : Model) : ObjectKey := { Namespace := m.Namespace, Name := m.Name }

/-- The name the server gives a Pod submitted for creation: its own, or
`generateName` plus the next suffix when it has none. -/
def Store.named (s : Store) (pod : Pod) : Pod :=
  if pod.Name = "" then { pod with Name := pod.GenerateName ++ toString s.nextSuffix }
  else pod

/-- Writes a Model back: replaces the stored one of the same key, or erases it when
deletion was requested and no finalizer is left. -/
def putModel (ms : List Model) (m : Model) : List Model :=
  if m.DeletionTimestamp.isSome ∧ m.Finalizers = [] then
    ms.filter (fun x => !x.hasKey m.key)
  else
    ms.map (fun x => if x.hasKey m.key then m else x)

/-- `r.Get(ctx, key, model)`: the error, the content of `obj` after the call, the
store after the call. -/
def Store.GetModel (s : Store) (key : ObjectKey) (obj : Model) : Option Err × Model × Store :=
  let s1 := { s with faults := { s.faults with getModel := s.faults.getModel.tail } }
  match nextFault s.faults.getModel with
  | some e => (some e, obj, s1.record (.getModel key) (some e))
  | none =>
    match s.modelAt key with
    | some m => (none, m, s1.record (.getModel key) none)
    | none => (some .notFound, obj, s1.record (.getModel key) (some .notFound))

/-- `r.Get(ctx, key, pod)`. A lookup by the empty name finds nothing. -/
def Store.GetPod (s : Store) (key : ObjectKey) (obj : Pod) : Option Err × Pod × Store :=
  let s1 := { s with faults := { s.faults with getPod := s.faults.getPod.tail } }
  match nextFault s.faults.getPod with
  | some e => (some e, obj, s1.record (.getPod key) (some e))
  | none =>
    match (if key.Name = "" then none else s.podAt key) with
    | some p => (none, p, s1.record (.getPod key) none)
    | none => (some .notFound, obj, s1.record (.getPod key) (some .notFound))

/-- `r.Create(ctx, pod)`: a Pod without a name gets `generateName` plus a generated
suffix; a name already taken in the namespace is refused. -/
def Store.CreatePod (s : Store) (pod : Pod) : Option Err × Pod × Store :=
  let s1 := { s with faults := { s.faults with createPod := s.faults.createPod.tail } }
  match nextFault s.faults.createPod with
  | some e => (some e, pod, s1.record (.createPod pod) (some e))
  | none =>
    let s2 := { s1 with nextSuffix := s.nextSuffix + 1 }
    if s.holdsPod (s.named pod).key then
      (some .alreadyExists, pod, s2.record (.createPod pod) (some .alreadyExists))
    else
      (none, s.named pod,
        { s2 with pods := s.pods ++ [s.named pod] }.record (.createPod pod) none)

/-- `r.Delete(ctx, pod)`. -/
def Store.DeletePod (s : Store) (pod : Pod) : Option Err × Store :=
  let s1 := { s with faults := { s.faults with deletePod := s.faults.deletePod.tail } }
  match nextFault s.faults.deletePod with
  | some e => (some e, s1.record (.deletePod pod) (some e))
  | none =>
    if s.holdsPod pod.key then
      (none, { s1 with pods := s.pods.filter (fun p => !p.hasKey pod.key) }.record
        (.deletePod pod) none)
    else (some .notFound, s1.record (.deletePod pod) (some .notFound))

/-- `r.Update(ctx, model)`: `Model` has the status subresource
(`+kubebuilder:subresource:status`), so the stored status is kept; the answer of the
server is written back into `model`. -/
def Store.UpdateModel (s : Store) (model : Model) : Option Err × Model × Store :=
  let s1 := { s with faults := { s.faults with updateModel := s.faults.updateModel.tail } }
  match nextFault s.faults.updateModel with
  | some e => (some e, model, s1.record (.updateModel model) (some e))
  | none =>
    match s.modelAt model.key with
    | some stored =>
      let written : Model := { model with Status := stored.Status }
      (none, written,
        { s1 with models := putModel s.models written }.record (.updateModel model) none)
    | none => (some .notFound, model, s1.record (.updateModel model) (some .notFound))

/-- `r.Status().Patch(ctx, obj, client.MergeFrom(base))`: the merge patch carries
what differs between `base` and `obj` as they are when the call is made; the status
endpoint applies its status part; the answer is written back into `obj`. -/
def Store.PatchStatus (s : Store) (obj : Model) (base : Model) : Option Err × Model × Store :=
  let s1 := { s with faults := { s.faults with patchStatus := s.faults.patchStatus.tail } }
  match nextFault s.faults.patchStatus with
  | some e => (some e, obj, s1.record (.patchStatus obj base) (some e))
  | none =>
    match s.modelAt obj.key with
    | some stored =>
      let written : Model :=
        { stored with Status :=
            { PodRef := if base.Status.PodRef ≠ obj.Status.PodRef then obj.Status.PodRef
                        else stored.Status.PodRef } }
      (none, written,
        { s1 with models := putModel s.models written }.record (.patchStatus obj base) none)
    | none => (some .notFound, obj, s1.record (.patchStatus obj base) (some .notFound))

/-- `r.Patch(ctx, obj, client.MergeFrom(base))`: as `PatchStatus`, on the main
endpoint, which applies everything of the patch but its status part. -/
def Store.PatchModel (s : Store) (obj : Model) (base : Model) : Option Err × Model × Store :=
  let s1 := { s with faults := { s.faults with patchModel := s.faults.patchModel.tail } }
  match nextFault s.faults.patchModel with
  | some e => (some e, obj, s1.record (.patchModel obj base) (some e))
  | none =>
    match s.modelAt obj.key with
    | some stored =>
      let written : Model :=
        { stored with
          Finalizers := if base.Finalizers ≠ obj.Finalizers then obj.Finalizers
                        else stored.Finalizers
          Spec := if base.Spec ≠ obj.Spec then obj.Spec else stored.Spec }
      (none, written,
        { s1 with models := putModel s.models written }.record (.patchModel obj base) none)
    | none => (some .notFound, obj, s1.record (.patchModel obj base) (some .notFound))

/-! ## `pod.go` and `model_controller.go`: the reconciler -/

/-- What a method taking `model *Model` leaves behind: the error it returns, the
Model behind the pointer, the store. -/
structure Outcome where
  err : Option Err
  model : Model
  store : Store
deriving DecidableEq, Repr

/-- The test `err != nil && !apierrors.IsNotFound(err)`. -/
def otherThanNotFound (err : Option Err) : Bool :=
  match err with
  | some e => !IsNotFound e
  | none => false

/-- `ModelReconciler.createPod`. -/
def createPod (r : ModelReconciler) (model : Model) (s : Store) : Outcome :=
  let pod : Pod :=
    { Pod.empty with Namespace := model.Namespace, GenerateName := model.Name ++ "-" }
  match SetOwnerReference model pod r.Scheme with
  | (some e, _) => { err := some e, model := model, store := s }
  | (none, owned) =>
    let rendered := modelToPod r model owned
    let c := s.CreatePod rendered
    match c.1 with
    | some e => { err := some e, model := model, store := c.2.2 }
    | none =>
      { err := none
        model := { model with Status := { model.Status with
          PodRef := some { Name := c.2.1.Name, Namespace := c.2.1.Namespace } } }
        store := c.2.2 }

/-- `ModelReconciler.updatePod`. -/
def updatePod (r : ModelReconciler) (model : Model) (pod : Pod) (s : Store) : Outcome :=
  let before := pod
  let pod1 := modelToPod r model pod
  if !SemanticDeepEqual before.Spec pod1.Spec then
    let d := s.DeletePod before
    match d.1 with
    | some e => { err := some e, model := model, store := d.2 }
    | none => createPod r model d.2
  else { err := none, model := model, store := s }

/-- `ModelReconciler.reconcilePod`. -/
def reconcilePod (r : ModelReconciler) (model : Model) (s : Store) : Outcome :=
  let name : String :=
    match model.Status.PodRef with
    | some ref => ref.Name
    | none => ""
  let g := s.GetPod { Namespace := model.Namespace, Name := name } Pod.empty
  match g.1 with
  | some e =>
    if !IsNotFound e then { err := some e, model := model, store := g.2.2 }
    else createPod r model g.2.2
  | none => updatePod r model g.2.1 g.2.2

/-- `ModelReconciler.reconcileDelete`. -/
def reconcileDelete (_r : ModelReconciler) (model : Model) (s : Store) : Outcome :=
  if !ContainsFinalizer model ModelFinalizer then { err := none, model := model, store := s }
  else
    let g := s.GetPod { Namespace := model.Namespace, Name := model.Name } Pod.empty
    if otherThanNotFound g.1 then { err := g.1, model := model, store := g.2.2 }
    else
      let d := g.2.2.DeletePod g.2.1
      if otherThanNotFound d.1 then { err := d.1, model := model, store := d.2 }
      else { err := none, model := RemoveFinalizer model ModelFinalizer, store := d.2 }

/-- `ModelReconciler.reconcileNormal`. -/
def reconcileNormal (r : ModelReconciler) (model : Model) (s : Store) : Outcome :=
  if !ContainsFinalizer model ModelFinalizer then
    let u := s.UpdateModel (AddFinalizer model ModelFinalizer)
    match u.1 with
    | some e => { err := some e, model := u.2.1, store := u.2.2 }
    | none => reconcilePod r u.2.1 u.2.2
  else reconcilePod r model s

/-- The deferred function of `Reconcile`: the status patch, then the patch of the
rest, both of `newModel` against `client.MergeFrom(model)`; their errors are only
logged. -/
def deferredPatch (model : Model) (newModel : Model) (s : Store) : Store :=
  let p := s.PatchStatus newModel model
  let q := p.2.2.PatchModel p.2.1 model
  q.2.2

/-- `ModelReconciler.Reconcile`: the returned error and the store it leaves. -/
def Reconcile (r : ModelReconciler) (req : Request) (s : Store) : Option Err × Store :=
  let g := s.GetModel req.NamespacedName Model.empty
  match g.1 with
  | some e => (IgnoreNotFound e, g.2.2)
  | none =>
    let model := g.2.1
    let newModel := model
    if model.DeletionTimestamp.isSome then
      let o := reconcileDelete r model g.2.2
      (o.err, deferredPatch o.model newModel o.store)
    else
      let o := reconcileNormal r newModel g.2.2
      (o.err, deferredPatch model o.model o.store)

/-! ## Reading the call log -/

/-- Whether the logged call is a Pod create. -/
def Event.isCreate (e : Event) : Bool :=
  match e.call with
  | .createPod _ => true
  | _ => false

/-- Whether the logged call is a Pod delete. -/
def Event.isDelete (e : Event) : Bool :=
  match e.call with
  | .deletePod _ => true
  | _ => false

/-- Whether the logged call is a Model update. -/
def Event.isUpdate (e : Event) : Bool :=
  match e.call with
  | .updateModel _ => true
  | _ => false

/-- Whether the logged call writes to the store (anything but a get). -/
def Event.isWrite (e : Event) : Bool :=
  match e.call with
  | .getModel _ => false
  | .getPod _ => false
  | _ => true

/-- The finalizers of the object a logged patch call was given. -/
def Event.patchedFinalizers (e : Event) : Option (List String) :=
  match e.call with
  | .patchStatus obj _ => some obj.Finalizers
  | .patchModel obj _ => some obj.Finalizers
  | _ => none

/-- The spec `modelToPod` produces on a freshly created empty Pod. -/
def render (r : ModelReconciler) (model : Model) : PodSpec :=
  (modelToPod r model Pod.empty).Spec

/-! ## Concrete inputs -/

/-- A reconciler configured as in `suite_test.go`, with the default image left to
`modelToPod`. -/
def exampleReconciler : ModelReconciler :=
  { Scheme := { ModelGVK := { APIVersion := "ollama.sivchari.io/v1alpha1", Kind := "Model" } },
    OllamaContainerImage := "" }

/-- The Model of the controller test: one image, no template, already carrying
the finalizer. -/
def exampleModel : Model :=
  { Namespace := "default", Name := "m", UID := "uid-m", DeletionTimestamp := none,
    Finalizers := [ModelFinalizer],
    Spec := { Images := ["llama3"], Paused := none, Template := none },
    Status := { PodRef := none } }

/-- The key of `exampleModel`. -/
def exampleRequest : Request :=
  { NamespacedName := { Namespace := "default", Name := "m" } }

/-- A store holding `exampleModel` and no Pod. -/
def exampleStore : Store :=
  { models := [exampleModel], pods := [], nextSuffix := 0, faults := Faults.none, log := [] }

/-- The state the create path leaves: `exampleModel` with its Pod `m-0`. -/
def createdOutcome : Outcome := createPod exampleReconciler exampleModel exampleStore

/-- A Pod of the same namespace that happens to bear the name of the Model. -/
def namesakePod : Pod := { Pod.empty with Namespace := "default", Name := "m" }

/-- The Model after its Pod was created, with deletion requested. -/
def deletingModel : Model := { createdOutcome.model with DeletionTimestamp := some 1 }

/-- The store at the deletion request: the Model, its Pod `m-0` and `namesakePod`. -/
def deletingStore : Store :=
  { createdOutcome.store with
    models := [deletingModel]
    pods := createdOutcome.store.pods ++ [namesakePod]
    log := [] }

/-- The Model of the controller test with `paused: true`. -/
def pausedModel : Model :=
  { exampleModel with Spec := { exampleModel.Spec with Paused := some true } }

/-- A store holding `pausedModel` and no Pod. -/
def pausedStore : Store := { exampleStore with models := [pausedModel] }

/-- The post-start script as the spec words it: for each image, in input order,
`ollama pull `, the image, `;`, with nothing between or after the entries. -/
def pullScript : List String → String
  | [] => ""
  | i :: rest => "ollama pull " ++ i ++ ";" ++ pullScript rest

/-- The post-start exec command of a container, if it has one. -/
def Container.postStartCommand (c : Container) : Option (List String) :=
  match c.Lifecycle with
  | some l =>
    match l.PostStart with
    | some h =>
      match h.Exec with
      | some e => some e.Command
      | none => none
    | none => none
  | none => none

/-- A Model as `exampleModel` whose template declares a node selector. -/
def selectorModel : Model :=
  { exampleModel with
    Spec :=
      { Images := ["llama3"]
        Paused := none
        Template := some (ModelTemplate.mk none (some (ModelTemplateSpec.mk [] []
          [("gpu", "true")] none [] []))) } }

/-- The state the create path leaves for `selectorModel`: its Pod `m-0` carries the
node selector. -/
def selectorOutcome : Outcome :=
  createPod exampleReconciler selectorModel { exampleStore with models := [selectorModel] }

/-- The Model afterwards, its template removed from the spec. -/
def untemplatedModel : Model :=
  { selectorOutcome.model with Spec := exampleModel.Spec }

/-- The store afterwards: the Model without template, the Pod `m-0` of before. -/
def untemplatedStore : Store :=
  { selectorOutcome.store with models := [untemplatedModel], log := [] }

/-- A Pod owned by a `ModelSet` of the operator's API group. -/
def modelSetOwnedPod : Pod :=
  { Pod.empty with
    Namespace := "default"
    Name := "p"
    OwnerReferences := [ { APIVersion := "ollama.sivchari.io/v1alpha1", Kind := "ModelSet",
                           Name := "set", UID := "uid-set" } ] }

/-- The owner reference `SetOwnerReference` builds for a Model. -/
def ownerRefOf (r : ModelReconciler) (model : Model) : OwnerReference :=
  { APIVersion := r.Scheme.ModelGVK.APIVersion, Kind := r.Scheme.ModelGVK.Kind,
    Name := model.Name, UID := model.UID }

/-- The Pod the create path submits for a Model. -/
def podToCreate (r : ModelReconciler) (model : Model) : Pod :=
  modelToPod r model
    { Pod.empty with
      Namespace := model.Namespace
      GenerateName := model.Name ++ "-"
      OwnerReferences := [ownerRefOf r model] }

/-- The key under which `reconcilePod` looks the Pod up. -/
def lookupKey (model : Model) : ObjectKey :=
  { Namespace := model.Namespace
    Name := match model.Status.PodRef with
      | some ref => ref.Name
      | none => "" }

/-- The store with other outcomes queued for the two deferred patches. -/
def Store.withPatchFaults (s : Store) (qs qm : List (Option Err)) : Store :=
  { s with faults := { s.faults with patchStatus := qs, patchModel := qm } }

/-- The outcome with other outcomes queued for the two deferred patches. -/
def Outcome.withPatchFaults (o : Outcome) (qs qm : List (Option Err)) : Outcome :=
  { o with store := o.store.withPatchFaults qs qm }

/-- The Pod `m-0` that the create path made for `selectorModel`. -/
def selectorPod : Pod := { podToCreate exampleReconciler selectorModel with Name := "m-0" }

/-- The Model afterwards: the template removed and a second image added. -/
def twoImageModel : Model :=
  { untemplatedModel with Spec := { Images := ["llama3", "x"], Paused := none, Template := none } }

/-- The store afterwards: `twoImageModel` and the Pod `m-0` of before. -/
def twoImageStore : Store := { untemplatedStore with models := [twoImageModel] }

/-- Whether the logged call is a Pod lookup, create or delete. -/
def Event.isPodCall (e : Event) : Bool :=
  match e.call with
  | .getPod _ => true
  | .createPod _ => true
  | .deletePod _ => true
  | _ => false

/-- A store whose next Pod lookup fails on the server's side. -/
def failingLookupStore : Store :=
  { deletingStore with
    faults := { Faults.none with getPod := [some (Err.other "timeout")] } }

/-- A store whose next Pod delete fails on the server's side. -/
def failingDeleteStore : Store :=
  { deletingStore with
    faults := { Faults.none with deletePod := [some (Err.other "conflict")] } }

/-- Whether an owner reference of the Pod names the Model stored under the key. -/
def ownedBy (key : ObjectKey) (p : Pod) : Bool :=
  p.Namespace == key.Namespace && p.OwnerReferences.any (fun o => o.Name == key.Name)

/-- The live Pods whose owner reference names the Model stored under the key. -/
def Store.ownedPods (s : Store) (key : ObjectKey) : List Pod :=
  s.pods.filter (ownedBy key)

/-- A store holding `exampleModel` and no Pod, in which the next status patch fails on
the server's side. -/
def lostStatusStore : Store :=
  { exampleStore with
    faults := { Faults.none with patchStatus := [some (Err.other "conflict")] } }

/-- The Models after the spec of the one stored under the key was changed. -/
def withSpec (key : ObjectKey) (spec : ModelSpec) (ms : List Model) : List Model :=
  ms.map (fun m => if m.hasKey key then { m with Spec := spec } else m)

/-- One step on the store: a `Reconcile` pass on the Model of the request whose status
patch is not failed by the server and whose Pod lookup is not answered not-found by the
server on its own; a change of the spec of that Model; or any change of the outcomes
the next calls will meet. -/
inductive Step (r : ModelReconciler) (req : Request) : Store → Store → Prop where
  | pass (s : Store)
      (hget : nextFault s.faults.getPod ≠ some Err.notFound)
      (hpatch : nextFault s.faults.patchStatus = none) :
      Step r req s (Reconcile r req s).2
  | specChange (s : Store) (spec : ModelSpec) :
      Step r req s { s with models := withSpec req.NamespacedName spec s.models }
  | setFaults (s : Store) (f : Faults) :
      Step r req s { s with faults := f }

/-- The stores reachable from `s0` by such steps. -/
inductive Reachable (r : ModelReconciler) (req : Request) (s0 : Store) : Store → Prop where
  | init : Reachable r req s0 s0
  | step (s t : Store) : Reachable r req s0 s → Step r req s t → Reachable r req s0 t

/-- Every Pod of the list that the Model of the key owns bears the name `name`, which
is not empty. -/
def Tracked (key : ObjectKey) (name : String) (pods : List Pod) : Prop :=
  ∀ p ∈ pods, ownedBy key p = true → p.Name = name ∧ name ≠ ""

/-- The invariant of the passes: the Model of the key owns at most one Pod, and as long
as the Model is stored its `status.podRef` names every Pod it owns. -/
def PodInvariant (key : ObjectKey) (s : Store) : Prop :=
  (s.ownedPods key).length ≤ 1 ∧
  ∀ m, s.modelAt key = some m → Tracked key (lookupKey m).Name s.pods

/-- The store after one `Reconcile` pass on `exampleStore`. -/
def firstPassStore : Store := (Reconcile exampleReconciler exampleRequest exampleStore).2

/-- The store after the spec of the Model was then changed to two images. -/
def respecStore : Store :=
  { firstPassStore with
    models := withSpec exampleRequest.NamespacedName twoImageModel.Spec firstPassStore.models }

/-- The store after a second `Reconcile` pass, on the changed spec. -/
def secondPassStore : Store := (Reconcile exampleReconciler exampleRequest respecStore).2

/-- The store after one pass, in which the next Pod lookup is answered not-found
although the Pod is stored. -/
def staleLookupStore : Store :=
  { firstPassStore with faults := { Faults.none with getPod := [some Err.notFound] } }

/-! ## Lemmas on the renderer, the store operations and the reconciler -/

/-- Executing the body of the `range` of `postStartScript` for one image. -/
theorem executeBody_postStart (i : String) :
    executeBody i [.text "ollama pull ", .dot, .text ";"] = "ollama pull " ++ i ++ ";" := by
  simp [executeBody, String.append_assoc]

/-- Executing the `range` of `postStartScript` gives the script of the spec. -/
theorem executeRange_postStart (images : List String) :
    executeRange [.text "ollama pull ", .dot, .text ";"] images = pullScript images := by
  induction images with
  | nil => rfl
  | cons i rest ih => simp [executeRange, pullScript, executeBody_postStart, ih]

/-- Executing `postStartScript` gives the script of the spec. -/
theorem execute_postStartScript (images : List String) :
    execute { Images := images } postStartScript = pullScript images := by
  simp [execute, postStartScript, executeRange_postStart]

theorem SetOwnerReference_fresh (r : ModelReconciler) (model : Model) :
    SetOwnerReference model
      { Pod.empty with Namespace := model.Namespace, GenerateName := model.Name ++ "-" }
      r.Scheme =
    (none, { Pod.empty with Namespace := model.Namespace, GenerateName := model.Name ++ "-",
                            OwnerReferences := [ownerRefOf r model] }) := by
  by_cases h : model.Namespace = "" <;>
    simp [SetOwnerReference, validateOwner, upsertOwnerRef, Pod.empty, ownerRefOf, h]

theorem modelToPod_spec_congr (r : ModelReconciler) (model : Model) (p q : Pod)
    (h : p.Spec = q.Spec) : (modelToPod r model p).Spec = (modelToPod r model q).Spec := by
  unfold modelToPod
  rcases hT : model.Spec.Template with _ | t
  · simp [h]
  · rcases hM : t.Metadata with _ | md <;> rcases hS : t.Spec with _ | ts <;> simp [h, hM, hS]

theorem podToCreate_spec (r : ModelReconciler) (model : Model) :
    (podToCreate r model).Spec = render r model := by
  unfold podToCreate render
  exact modelToPod_spec_congr r model _ _ rfl

theorem modelToPod_meta (r : ModelReconciler) (model : Model) (p : Pod) :
    (modelToPod r model p).Namespace = p.Namespace ∧ (modelToPod r model p).Name = p.Name ∧
    (modelToPod r model p).GenerateName = p.GenerateName ∧
    (modelToPod r model p).OwnerReferences = p.OwnerReferences := by
  unfold modelToPod
  rcases hT : model.Spec.Template with _ | t
  · simp
  · rcases hM : t.Metadata with _ | md <;> simp [hM]

theorem createPod_eq (r : ModelReconciler) (model : Model) (s : Store) :
    createPod r model s =
      match (s.CreatePod (podToCreate r model)).1 with
      | some e => { err := some e, model := model, store := (s.CreatePod (podToCreate r model)).2.2 }
      | none =>
        { err := none
          model := { model with Status := { model.Status with
            PodRef := some { Name := (s.CreatePod (podToCreate r model)).2.1.Name,
                             Namespace := (s.CreatePod (podToCreate r model)).2.1.Namespace } } }
          store := (s.CreatePod (podToCreate r model)).2.2 } := by
  simp only [createPod, SetOwnerReference_fresh]
  rfl

theorem GetPod_miss (s : Store) (key : ObjectKey) (obj : Pod)
    (hf : nextFault s.faults.getPod = none) (h : key.Name = "" ∨ s.podAt key = none) :
    s.GetPod key obj =
      (some .notFound, obj,
        { s with faults := { s.faults with getPod := s.faults.getPod.tail } }.record
          (.getPod key) (some .notFound)) := by
  unfold Store.GetPod
  rcases h with h | h
  · simp [hf, h]
  · by_cases hn : key.Name = "" <;> simp [hf, h, hn]

theorem GetPod_hit (s : Store) (key : ObjectKey) (obj p : Pod)
    (hf : nextFault s.faults.getPod = none) (hn : key.Name ≠ "") (h : s.podAt key = some p) :
    s.GetPod key obj =
      (none, p,
        { s with faults := { s.faults with getPod := s.faults.getPod.tail } }.record
          (.getPod key) none) := by
  simp [Store.GetPod, hf, h, hn]

theorem CreatePod_log (s : Store) (pod : Pod) :
    (s.CreatePod pod).2.2.log = s.log ++ [{ call := .createPod pod, err := (s.CreatePod pod).1 }] := by
  rcases hf : nextFault s.faults.createPod with _ | e
  · by_cases hc : s.holdsPod (s.named pod).key = true <;>
      simp [Store.CreatePod, hf, hc, Store.record]
  · simp [Store.CreatePod, hf, Store.record]

theorem generated_name_ne_empty (g suffix : String) : g ++ "-" ++ suffix ≠ "" := by
  intro h
  have h1 := congrArg String.length h
  simp only [String.length_append] at h1
  have h2 : "-".length = 1 := by decide
  have h3 : "".length = 0 := by decide
  omega

theorem find?_append_fresh {α : Type} (p : α → Bool) (l : List α) (a : α)
    (h : l.any p = false) (ha : p a = true) : (l ++ [a]).find? p = some a := by
  induction l with
  | nil => simp [ha]
  | cons x xs ih =>
    simp only [List.any_cons, Bool.or_eq_false_iff] at h
    simp [List.find?, h.1, ih h.2]

theorem CreatePod_ok (s : Store) (pod : Pod) (h : (s.CreatePod pod).1 = none) :
    (s.CreatePod pod).2.1 = s.named pod ∧
    (s.CreatePod pod).2.2.pods = s.pods ++ [s.named pod] ∧
    (s.CreatePod pod).2.2.podAt (s.named pod).key = some (s.named pod) ∧
    s.holdsPod (s.named pod).key = false := by
  rcases hf : nextFault s.faults.createPod with _ | e
  · by_cases hc : s.holdsPod (s.named pod).key = true
    · simp [Store.CreatePod, hf, hc] at h
    · simp only [Bool.not_eq_true] at hc
      simp only [Store.CreatePod, hf, hc, Store.record, Store.podAt]
      refine ⟨rfl, rfl, ?_, trivial⟩
      apply find?_append_fresh
      · exact hc
      · simp [Pod.hasKey, Pod.key]
  · simp [Store.CreatePod, hf] at h

theorem CreatePod_err (s : Store) (pod : Pod) (h : (s.CreatePod pod).1 ≠ none) :
    (s.CreatePod pod).2.2.pods = s.pods := by
  rcases hf : nextFault s.faults.createPod with _ | e
  · by_cases hc : s.holdsPod (s.named pod).key = true
    · simp [Store.CreatePod, hf, hc, Store.record]
    · simp [Store.CreatePod, hf, hc] at h
  · simp [Store.CreatePod, hf, Store.record]

theorem named_of_unnamed (s : Store) (pod : Pod) (h : pod.Name = "") :
    s.named pod = { pod with Name := pod.GenerateName ++ toString s.nextSuffix } := by
  simp [Store.named, h]

theorem reconcilePod_eq (r : ModelReconciler) (model : Model) (s : Store) :
    reconcilePod r model s =
      match (s.GetPod (lookupKey model) Pod.empty).1 with
      | some e =>
        if !IsNotFound e then
          { err := some e, model := model, store := (s.GetPod (lookupKey model) Pod.empty).2.2 }
        else createPod r model (s.GetPod (lookupKey model) Pod.empty).2.2
      | none =>
        updatePod r model (s.GetPod (lookupKey model) Pod.empty).2.1
          (s.GetPod (lookupKey model) Pod.empty).2.2 := rfl

theorem podToCreate_meta (r : ModelReconciler) (model : Model) :
    (podToCreate r model).Namespace = model.Namespace ∧
    (podToCreate r model).Name = "" ∧
    (podToCreate r model).GenerateName = model.Name ++ "-" ∧
    (podToCreate r model).OwnerReferences = [ownerRefOf r model] :=
  modelToPod_meta r model
    { Pod.empty with
      Namespace := model.Namespace
      GenerateName := model.Name ++ "-"
      OwnerReferences := [ownerRefOf r model] }

/-- What the create path does on any store: one create call, whose error it returns;
on success the reference names the stored Pod, on failure nothing changes. -/
theorem createPod_outcome (r : ModelReconciler) (model : Model) (s : Store) :
    ∃ e : Option Err,
      (createPod r model s).store.log =
        s.log ++ [{ call := .createPod (podToCreate r model), err := e }] ∧
      (createPod r model s).err = e ∧
      (e = none → ∃ name : String, name ≠ "" ∧
        (createPod r model s).model =
          { model with Status := { PodRef := some { Name := name, Namespace := model.Namespace } } } ∧
        (createPod r model s).store.podAt { Namespace := model.Namespace, Name := name } =
          some { podToCreate r model with Name := name } ∧
        (createPod r model s).store.pods = s.pods ++ [{ podToCreate r model with Name := name }] ∧
        s.holdsPod { Namespace := model.Namespace, Name := name } = false) ∧
      (e ≠ none → (createPod r model s).model = model ∧
        (createPod r model s).store.pods = s.pods) := by
  obtain ⟨hns, hnm, hgn, _⟩ := podToCreate_meta r model
  rw [createPod_eq]
  refine ⟨(s.CreatePod (podToCreate r model)).1, ?_, ?_, ?_, ?_⟩
  · have hl := CreatePod_log s (podToCreate r model)
    rcases hc : (s.CreatePod (podToCreate r model)).1 with _ | e
    · simp only [hc] at hl ⊢; rw [hl]
    · simp only [hc] at hl ⊢; rw [hl]
  · rcases hc : (s.CreatePod (podToCreate r model)).1 with _ | e <;> simp
  · intro hc
    obtain ⟨h1, h2, h3, h4⟩ := CreatePod_ok s (podToCreate r model) hc
    rw [named_of_unnamed _ _ hnm] at h1 h2 h3 h4
    refine ⟨(podToCreate r model).GenerateName ++ toString s.nextSuffix, ?_, ?_, ?_, ?_, ?_⟩
    · rw [hgn]; exact generated_name_ne_empty _ _
    · simp only [hc, h1, hns]
    · simp only [hc]
      simpa [Pod.key, hns] using h3
    · simp only [hc]; exact h2
    · simpa [Pod.key, hns] using h4
  · intro hc
    have hp := CreatePod_err s (podToCreate r model) hc
    rcases hc' : (s.CreatePod (podToCreate r model)).1 with _ | e
    · exact absurd hc' hc
    · simp [hp]

theorem DeletePod_log (s : Store) (pod : Pod) :
    (s.DeletePod pod).2.log = s.log ++ [{ call := .deletePod pod, err := (s.DeletePod pod).1 }] := by
  rcases hf : nextFault s.faults.deletePod with _ | e
  · by_cases hc : s.holdsPod pod.key = true <;> simp [Store.DeletePod, hf, hc, Store.record]
  · simp [Store.DeletePod, hf, Store.record]

theorem updatePod_eq (r : ModelReconciler) (model : Model) (pod : Pod) (s : Store) :
    updatePod r model pod s =
      if pod.Spec = (modelToPod r model pod).Spec then { err := none, model := model, store := s }
      else
        match (s.DeletePod pod).1 with
        | some e => { err := some e, model := model, store := (s.DeletePod pod).2 }
        | none => createPod r model (s.DeletePod pod).2 := by
  by_cases h : pod.Spec = (modelToPod r model pod).Spec
  · simp [updatePod, SemanticDeepEqual, h]
  · simp only [updatePod, SemanticDeepEqual, h, decide_False, Bool.not_false, if_true, if_false]

theorem GetModel_withPatchFaults (s : Store) (qs qm : List (Option Err)) (key : ObjectKey)
    (obj : Model) :
    (s.withPatchFaults qs qm).GetModel key obj =
      ((s.GetModel key obj).1, (s.GetModel key obj).2.1,
        (s.GetModel key obj).2.2.withPatchFaults qs qm) := by
  have hp : (s.withPatchFaults qs qm).modelAt key = s.modelAt key := rfl
  have hq : (s.withPatchFaults qs qm).faults.getModel = s.faults.getModel := rfl
  simp only [Store.GetModel, hp, hq]
  rcases hf : nextFault s.faults.getModel with _ | e
  · rcases hm : s.modelAt key with _ | m <;> rfl
  · rfl

theorem GetPod_withPatchFaults (s : Store) (qs qm : List (Option Err)) (key : ObjectKey)
    (obj : Pod) :
    (s.withPatchFaults qs qm).GetPod key obj =
      ((s.GetPod key obj).1, (s.GetPod key obj).2.1,
        (s.GetPod key obj).2.2.withPatchFaults qs qm) := by
  have hp : (s.withPatchFaults qs qm).podAt key = s.podAt key := rfl
  have hq : (s.withPatchFaults qs qm).faults.getPod = s.faults.getPod := rfl
  simp only [Store.GetPod, hp, hq]
  rcases hf : nextFault s.faults.getPod with _ | e
  · rcases hm : (if key.Name = "" then none else s.podAt key) with _ | m <;> rfl
  · rfl

theorem CreatePod_withPatchFaults (s : Store) (qs qm : List (Option Err)) (pod : Pod) :
    (s.withPatchFaults qs qm).CreatePod pod =
      ((s.CreatePod pod).1, (s.CreatePod pod).2.1,
        (s.CreatePod pod).2.2.withPatchFaults qs qm) := by
  have hp : (s.withPatchFaults qs qm).holdsPod ((s.withPatchFaults qs qm).named pod).key =
      s.holdsPod (s.named pod).key := rfl
  have hq : (s.withPatchFaults qs qm).faults.createPod = s.faults.createPod := rfl
  simp only [Store.CreatePod, hp, hq]
  rcases hf : nextFault s.faults.createPod with _ | e
  · by_cases hc : s.holdsPod (s.named pod).key = true
    · simp only [hc, if_true]; rfl
    · simp only [hc, if_false]; rfl
  · rfl

theorem DeletePod_withPatchFaults (s : Store) (qs qm : List (Option Err)) (pod : Pod) :
    (s.withPatchFaults qs qm).DeletePod pod =
      ((s.DeletePod pod).1, (s.DeletePod pod).2.withPatchFaults qs qm) := by
  have hp : (s.withPatchFaults qs qm).holdsPod pod.key = s.holdsPod pod.key := rfl
  have hq : (s.withPatchFaults qs qm).faults.deletePod = s.faults.deletePod := rfl
  simp only [Store.DeletePod, hp, hq]
  rcases hf : nextFault s.faults.deletePod with _ | e
  · by_cases hc : s.holdsPod pod.key = true
    · simp only [hc, if_true]; rfl
    · simp only [hc, if_false]; rfl
  · rfl

theorem UpdateModel_withPatchFaults (s : Store) (qs qm : List (Option Err)) (model : Model) :
    (s.withPatchFaults qs qm).UpdateModel model =
      ((s.UpdateModel model).1, (s.UpdateModel model).2.1,
        (s.UpdateModel model).2.2.withPatchFaults qs qm) := by
  have hp : (s.withPatchFaults qs qm).modelAt model.key = s.modelAt model.key := rfl
  have hq : (s.withPatchFaults qs qm).faults.updateModel = s.faults.updateModel := rfl
  simp only [Store.UpdateModel, hp, hq]
  rcases hf : nextFault s.faults.updateModel with _ | e
  · rcases hm : s.modelAt model.key with _ | m <;> rfl
  · rfl

theorem createPod_withPatchFaults (r : ModelReconciler) (model : Model) (s : Store)
    (qs qm : List (Option Err)) :
    createPod r model (s.withPatchFaults qs qm) = (createPod r model s).withPatchFaults qs qm := by
  rw [createPod_eq, createPod_eq, CreatePod_withPatchFaults]
  rcases hc : (s.CreatePod (podToCreate r model)).1 with _ | e <;> rfl

theorem updatePod_withPatchFaults (r : ModelReconciler) (model : Model) (pod : Pod) (s : Store)
    (qs qm : List (Option Err)) :
    updatePod r model pod (s.withPatchFaults qs qm) =
      (updatePod r model pod s).withPatchFaults qs qm := by
  rw [updatePod_eq, updatePod_eq, DeletePod_withPatchFaults]
  by_cases h : pod.Spec = (modelToPod r model pod).Spec
  · simp only [h, if_true]; rfl
  · simp only [h, if_false]
    rcases hc : (s.DeletePod pod).1 with _ | e
    · exact createPod_withPatchFaults r model _ qs qm
    · rfl

theorem reconcilePod_withPatchFaults (r : ModelReconciler) (model : Model) (s : Store)
    (qs qm : List (Option Err)) :
    reconcilePod r model (s.withPatchFaults qs qm) =
      (reconcilePod r model s).withPatchFaults qs qm := by
  rw [reconcilePod_eq, reconcilePod_eq, GetPod_withPatchFaults]
  rcases hc : (s.GetPod (lookupKey model) Pod.empty).1 with _ | e
  · exact updatePod_withPatchFaults r model _ _ qs qm
  · by_cases hn : (!IsNotFound e) = true
    · simp only [hn, if_true]; rfl
    · simp only [hn, if_false]
      exact createPod_withPatchFaults r model _ qs qm

theorem reconcileNormal_withPatchFaults (r : ModelReconciler) (model : Model) (s : Store)
    (qs qm : List (Option Err)) :
    reconcileNormal r model (s.withPatchFaults qs qm) =
      (reconcileNormal r model s).withPatchFaults qs qm := by
  unfold reconcileNormal
  by_cases hfin : (!ContainsFinalizer model ModelFinalizer) = true
  · simp only [hfin, if_true, UpdateModel_withPatchFaults]
    rcases hc : (s.UpdateModel (AddFinalizer model ModelFinalizer)).1 with _ | e
    · exact reconcilePod_withPatchFaults r _ _ qs qm
    · rfl
  · simp only [hfin, if_false]
    exact reconcilePod_withPatchFaults r model s qs qm

theorem reconcileDelete_withPatchFaults (r : ModelReconciler) (model : Model) (s : Store)
    (qs qm : List (Option Err)) :
    reconcileDelete r model (s.withPatchFaults qs qm) =
      (reconcileDelete r model s).withPatchFaults qs qm := by
  unfold reconcileDelete
  by_cases hfin : (!ContainsFinalizer model ModelFinalizer) = true
  · simp only [hfin, if_true]; rfl
  · simp only [hfin, if_false, GetPod_withPatchFaults, DeletePod_withPatchFaults]
    by_cases hg : otherThanNotFound (s.GetPod { Namespace := model.Namespace, Name := model.Name } Pod.empty).1 = true
    · simp only [hg, if_true]; rfl
    · simp only [hg, if_false]
      by_cases hd : otherThanNotFound
          ((s.GetPod { Namespace := model.Namespace, Name := model.Name } Pod.empty).2.2.DeletePod
            (s.GetPod { Namespace := model.Namespace, Name := model.Name } Pod.empty).2.1).1 = true
      · simp only [hd, if_true]; rfl
      · simp only [hd, if_false]; rfl

theorem GetModel_err (s : Store) (key : ObjectKey) (obj : Model) (e : Err)
    (h : (s.GetModel key obj).1 = some e) :
    (s.GetModel key obj).2.2.log = s.log ++ [{ call := .getModel key, err := some e }] ∧
    (s.GetModel key obj).2.2.models = s.models ∧ (s.GetModel key obj).2.2.pods = s.pods := by
  rcases hf : nextFault s.faults.getModel with _ | e'
  · rcases hm : s.modelAt key with _ | m
    · simp only [Store.GetModel, hf, hm] at h ⊢
      cases h
      exact ⟨rfl, rfl, rfl⟩
    · simp [Store.GetModel, hf, hm] at h
  · simp only [Store.GetModel, hf] at h ⊢
    cases h
    exact ⟨rfl, rfl, rfl⟩

theorem Reconcile_eq (r : ModelReconciler) (req : Request) (s : Store) :
    Reconcile r req s =
      match (s.GetModel req.NamespacedName Model.empty).1 with
      | some e => (IgnoreNotFound e, (s.GetModel req.NamespacedName Model.empty).2.2)
      | none =>
        if (s.GetModel req.NamespacedName Model.empty).2.1.DeletionTimestamp.isSome then
          ((reconcileDelete r (s.GetModel req.NamespacedName Model.empty).2.1
              (s.GetModel req.NamespacedName Model.empty).2.2).err,
            deferredPatch
              (reconcileDelete r (s.GetModel req.NamespacedName Model.empty).2.1
                (s.GetModel req.NamespacedName Model.empty).2.2).model
              (s.GetModel req.NamespacedName Model.empty).2.1
              (reconcileDelete r (s.GetModel req.NamespacedName Model.empty).2.1
                (s.GetModel req.NamespacedName Model.empty).2.2).store)
        else
          ((reconcileNormal r (s.GetModel req.NamespacedName Model.empty).2.1
              (s.GetModel req.NamespacedName Model.empty).2.2).err,
            deferredPatch (s.GetModel req.NamespacedName Model.empty).2.1
              (reconcileNormal r (s.GetModel req.NamespacedName Model.empty).2.1
                (s.GetModel req.NamespacedName Model.empty).2.2).model
              (reconcileNormal r (s.GetModel req.NamespacedName Model.empty).2.1
                (s.GetModel req.NamespacedName Model.empty).2.2).store) := rfl

theorem modelToPod_congr_model (r : ModelReconciler) (m1 m2 : Model) (p : Pod)
    (h : m1.Spec = m2.Spec) : modelToPod r m1 p = modelToPod r m2 p := by
  unfold modelToPod
  rw [h]

theorem modelToPod_spec_idem (r : ModelReconciler) (model : Model) (p : Pod) :
    (modelToPod r model (modelToPod r model p)).Spec = (modelToPod r model p).Spec := by
  unfold modelToPod
  rcases hT : model.Spec.Template with _ | t
  · simp
  · rcases hM : t.Metadata with _ | md <;> rcases hS : t.Spec with _ | ts <;> simp [hM, hS]

/-- Re-rendering a Pod whose spec was rendered from the same spec changes nothing. -/
theorem modelToPod_rendered (r : ModelReconciler) (m1 m2 : Model) (p q : Pod)
    (hm : m1.Spec = m2.Spec) (hq : q.Spec = (modelToPod r m2 p).Spec) :
    q.Spec = (modelToPod r m1 q).Spec := by
  rw [modelToPod_congr_model r m1 m2 q hm,
    modelToPod_spec_congr r m2 q (modelToPod r m2 p) hq, modelToPod_spec_idem]
  exact hq

theorem GetPod_ok (s : Store) (key : ObjectKey) (obj : Pod)
    (h : (s.GetPod key obj).1 = none) :
    key.Name ≠ "" ∧ s.podAt key = some (s.GetPod key obj).2.1 ∧
    (s.GetPod key obj).2.2.pods = s.pods ∧
    (s.GetPod key obj).2.2.models = s.models := by
  rcases hf : nextFault s.faults.getPod with _ | e
  · by_cases hn : key.Name = ""
    · simp [Store.GetPod, hf, hn] at h
    · rcases hp : s.podAt key with _ | p
      · simp [Store.GetPod, hf, hn, hp] at h
      · simp [Store.GetPod, hf, hn, hp, Store.record]
  · simp [Store.GetPod, hf] at h

theorem podAt_congr (s t : Store) (key : ObjectKey) (h : t.pods = s.pods) :
    t.podAt key = s.podAt key := by
  unfold Store.podAt
  rw [h]

/-- After a successful create the Model refers to a stored Pod that re-rendering
leaves as it is. -/
theorem createPod_converged (r : ModelReconciler) (model : Model) (s : Store)
    (h : (createPod r model s).err = none) :
    ∃ p, (lookupKey (createPod r model s).model).Name ≠ "" ∧
      (createPod r model s).store.podAt (lookupKey (createPod r model s).model) = some p ∧
      p.Spec = (modelToPod r (createPod r model s).model p).Spec ∧
      (createPod r model s).model.Finalizers = model.Finalizers := by
  obtain ⟨e, _, herr, hok, _⟩ := createPod_outcome r model s
  have he : e = none := by rw [← herr]; exact h
  obtain ⟨name, hne, hm, hat, _, _⟩ := hok he
  refine ⟨{ podToCreate r model with Name := name }, ?_, ?_, ?_, ?_⟩
  · rw [hm]; simpa [lookupKey] using hne
  · rw [hm]; simpa [lookupKey] using hat
  · rw [hm]
    exact modelToPod_rendered r _ model _ _ rfl rfl
  · rw [hm]

theorem DeletePod_models (s : Store) (pod : Pod) : (s.DeletePod pod).2.models = s.models := by
  rcases hf : nextFault s.faults.deletePod with _ | e
  · by_cases hc : s.holdsPod pod.key = true <;> simp [Store.DeletePod, hf, hc, Store.record]
  · simp [Store.DeletePod, hf, Store.record]

/-- After a successful `reconcilePod` the Model refers to a stored Pod that
re-rendering leaves as it is. -/
theorem reconcilePod_converged (r : ModelReconciler) (model : Model) (s : Store)
    (h : (reconcilePod r model s).err = none) :
    ∃ p, (lookupKey (reconcilePod r model s).model).Name ≠ "" ∧
      (reconcilePod r model s).store.podAt (lookupKey (reconcilePod r model s).model) = some p ∧
      p.Spec = (modelToPod r (reconcilePod r model s).model p).Spec ∧
      (reconcilePod r model s).model.Finalizers = model.Finalizers := by
  rw [reconcilePod_eq] at h ⊢
  rcases hg : (s.GetPod (lookupKey model) Pod.empty).1 with _ | e
  · simp only [hg] at h ⊢
    obtain ⟨hn, hat, hpods, _⟩ := GetPod_ok s (lookupKey model) Pod.empty hg
    rw [updatePod_eq] at h ⊢
    by_cases heq : (s.GetPod (lookupKey model) Pod.empty).2.1.Spec =
        (modelToPod r model (s.GetPod (lookupKey model) Pod.empty).2.1).Spec
    · simp only [heq, if_true] at h ⊢
      refine ⟨(s.GetPod (lookupKey model) Pod.empty).2.1, hn, ?_, ?_, by first | rfl | trivial⟩
      · rw [podAt_congr s _ _ hpods]; exact hat
      · exact heq
    · simp only [heq, if_false] at h ⊢
      rcases hd : ((s.GetPod (lookupKey model) Pod.empty).2.2.DeletePod
          (s.GetPod (lookupKey model) Pod.empty).2.1).1 with _ | e
      · simp only [hd] at h ⊢
        exact createPod_converged r model _ h
      · simp [hd] at h
  · simp only [hg] at h ⊢
    by_cases hn : (!IsNotFound e) = true
    · simp [hn] at h
    · simp only [hn, if_false] at h ⊢
      exact createPod_converged r model _ h

/-- On a Model that refers to a stored Pod which re-rendering leaves as it is,
`reconcilePod` issues the lookup and nothing else. -/
theorem reconcilePod_noop (r : ModelReconciler) (model : Model) (s : Store) (p : Pod)
    (hf : nextFault s.faults.getPod = none)
    (hn : (lookupKey model).Name ≠ "") (hat : s.podAt (lookupKey model) = some p)
    (heq : p.Spec = (modelToPod r model p).Spec) :
    reconcilePod r model s =
      { err := none, model := model,
        store := { s with faults := { s.faults with getPod := s.faults.getPod.tail } }.record
          (.getPod (lookupKey model)) none } := by
  rw [reconcilePod_eq, GetPod_hit s (lookupKey model) Pod.empty p hf hn hat]
  simp only []
  rw [updatePod_eq, if_pos heq]

theorem containsFinalizer_addFinalizer (m : Model) (f : String) :
    ContainsFinalizer (AddFinalizer m f) f = true := by
  unfold AddFinalizer ContainsFinalizer
  by_cases h : m.Finalizers.any (fun x => x == f) = true
  · simp only [h, if_true]
  · simp [h]

theorem UpdateModel_ok (s : Store) (model : Model) (h : (s.UpdateModel model).1 = none) :
    (s.UpdateModel model).2.1.Finalizers = model.Finalizers := by
  rcases hf : nextFault s.faults.updateModel with _ | e
  · rcases hm : s.modelAt model.key with _ | m
    · simp [Store.UpdateModel, hf, hm] at h
    · simp [Store.UpdateModel, hf, hm]
  · simp [Store.UpdateModel, hf] at h

theorem reconcileNormal_of_finalizer (r : ModelReconciler) (model : Model) (s : Store)
    (h : ContainsFinalizer model ModelFinalizer = true) :
    reconcileNormal r model s = reconcilePod r model s := by
  simp [reconcileNormal, h]

theorem reconcileNormal_of_no_finalizer (r : ModelReconciler) (model : Model) (s : Store)
    (h : ContainsFinalizer model ModelFinalizer = false) :
    reconcileNormal r model s =
      match (s.UpdateModel (AddFinalizer model ModelFinalizer)).1 with
      | some e =>
        { err := some e, model := (s.UpdateModel (AddFinalizer model ModelFinalizer)).2.1,
          store := (s.UpdateModel (AddFinalizer model ModelFinalizer)).2.2 }
      | none =>
        reconcilePod r (s.UpdateModel (AddFinalizer model ModelFinalizer)).2.1
          (s.UpdateModel (AddFinalizer model ModelFinalizer)).2.2 := by
  simp [reconcileNormal, h]

/-- After a successful `reconcileNormal` the Model carries the finalizer and refers to
a stored Pod that re-rendering leaves as it is. -/
theorem reconcileNormal_converged (r : ModelReconciler) (model : Model) (s : Store)
    (h : (reconcileNormal r model s).err = none) :
    ContainsFinalizer (reconcileNormal r model s).model ModelFinalizer = true ∧
    ∃ p, (lookupKey (reconcileNormal r model s).model).Name ≠ "" ∧
      (reconcileNormal r model s).store.podAt (lookupKey (reconcileNormal r model s).model) =
        some p ∧
      p.Spec = (modelToPod r (reconcileNormal r model s).model p).Spec := by
  by_cases hfin : ContainsFinalizer model ModelFinalizer = true
  · rw [reconcileNormal_of_finalizer r model s hfin] at h ⊢
    obtain ⟨p, h1, h2, h3, h4⟩ := reconcilePod_converged r _ _ h
    refine ⟨?_, p, h1, h2, h3⟩
    unfold ContainsFinalizer
    rw [h4]
    exact hfin
  · simp only [Bool.not_eq_true] at hfin
    rw [reconcileNormal_of_no_finalizer r model s hfin] at h ⊢
    rcases hu : (s.UpdateModel (AddFinalizer model ModelFinalizer)).1 with _ | e
    · simp only [hu] at h ⊢
      obtain ⟨p, h1, h2, h3, h4⟩ := reconcilePod_converged r _ _ h
      refine ⟨?_, p, h1, h2, h3⟩
      unfold ContainsFinalizer
      rw [h4, UpdateModel_ok _ _ hu]
      exact containsFinalizer_addFinalizer model ModelFinalizer
    · simp [hu] at h

theorem GetPod_log (s : Store) (key : ObjectKey) (obj : Pod) :
    (s.GetPod key obj).2.2.log = s.log ++ [{ call := .getPod key, err := (s.GetPod key obj).1 }] := by
  rcases hf : nextFault s.faults.getPod with _ | e
  · rcases hm : (if key.Name = "" then none else s.podAt key) with _ | m <;>
      simp [Store.GetPod, hf, hm, Store.record]
  · simp [Store.GetPod, hf, Store.record]

theorem GetPod_obj_of_err (s : Store) (key : ObjectKey) (obj : Pod) (e : Err)
    (h : (s.GetPod key obj).1 = some e) : (s.GetPod key obj).2.1 = obj := by
  rcases hf : nextFault s.faults.getPod with _ | e'
  · rcases hm : (if key.Name = "" then none else s.podAt key) with _ | m
    · simp [Store.GetPod, hf, hm]
    · simp [Store.GetPod, hf, hm] at h
  · simp [Store.GetPod, hf]

/-- The calls of `createPod`: one Pod call; the finalizers are not touched. -/
theorem createPod_calls (r : ModelReconciler) (model : Model) (s : Store) :
    ∃ evs : List Event, (createPod r model s).store.log = s.log ++ evs ∧
      evs.all Event.isPodCall = true ∧
      (createPod r model s).model.Finalizers = model.Finalizers := by
  obtain ⟨e, hlog, _, hok, hfail⟩ := createPod_outcome r model s
  refine ⟨_, hlog, by simp [Event.isPodCall], ?_⟩
  rcases he : e with _ | e'
  · obtain ⟨name, _, hm, _⟩ := hok he
    rw [hm]
  · rw [(hfail (by simp [he])).1]

/-- The calls of `updatePod`: Pod calls only; the finalizers are not touched. -/
theorem updatePod_calls (r : ModelReconciler) (model : Model) (pod : Pod) (s : Store) :
    ∃ evs : List Event, (updatePod r model pod s).store.log = s.log ++ evs ∧
      evs.all Event.isPodCall = true ∧
      (updatePod r model pod s).model.Finalizers = model.Finalizers := by
  rw [updatePod_eq]
  by_cases heq : pod.Spec = (modelToPod r model pod).Spec
  · rw [if_pos heq]
    exact ⟨[], by simp, rfl, rfl⟩
  · rw [if_neg heq]
    have hd := DeletePod_log s pod
    rcases hdel : (s.DeletePod pod).1 with _ | e
    · obtain ⟨evs, hlog, hall, hfin⟩ := createPod_calls r model (s.DeletePod pod).2
      refine ⟨{ call := .deletePod pod, err := none } :: evs, ?_, ?_, hfin⟩
      · show (createPod r model (s.DeletePod pod).2).store.log = _
        rw [hlog, hd, hdel]; simp
      · simp [Event.isPodCall, hall]
    · refine ⟨[{ call := .deletePod pod, err := some e }], ?_, ?_, rfl⟩
      · show (s.DeletePod pod).2.log = _
        rw [hd, hdel]
      · simp [Event.isPodCall]

/-- The calls of `reconcilePod`: Pod calls only; the finalizers are not touched. -/
theorem reconcilePod_calls (r : ModelReconciler) (model : Model) (s : Store) :
    ∃ evs : List Event, (reconcilePod r model s).store.log = s.log ++ evs ∧
      evs.all Event.isPodCall = true ∧
      (reconcilePod r model s).model.Finalizers = model.Finalizers := by
  have hg := GetPod_log s (lookupKey model) Pod.empty
  rw [reconcilePod_eq]
  rcases hc : (s.GetPod (lookupKey model) Pod.empty).1 with _ | e
  · obtain ⟨evs, hlog, hall, hfin⟩ := updatePod_calls r model
      (s.GetPod (lookupKey model) Pod.empty).2.1 (s.GetPod (lookupKey model) Pod.empty).2.2
    refine ⟨{ call := .getPod (lookupKey model), err := none } :: evs, ?_, ?_, hfin⟩
    · show (updatePod r model (s.GetPod (lookupKey model) Pod.empty).2.1
        (s.GetPod (lookupKey model) Pod.empty).2.2).store.log = _
      rw [hlog, hg, hc]; simp
    · simp [Event.isPodCall, hall]
  · by_cases hn : (!IsNotFound e) = true
    · refine ⟨[{ call := .getPod (lookupKey model), err := some e }], ?_, ?_, ?_⟩
      · dsimp only
        rw [if_pos hn]
        show (s.GetPod (lookupKey model) Pod.empty).2.2.log = _
        rw [hg, hc]
      · simp [Event.isPodCall]
      · dsimp only
        rw [if_pos hn]
    · obtain ⟨evs, hlog, hall, hfin⟩ := createPod_calls r model
        (s.GetPod (lookupKey model) Pod.empty).2.2
      refine ⟨{ call := .getPod (lookupKey model), err := some e } :: evs, ?_, ?_, ?_⟩
      · dsimp only
        rw [if_neg hn, hlog, hg, hc]; simp
      · simp [Event.isPodCall, hall]
      · dsimp only
        rw [if_neg hn]
        exact hfin

theorem UpdateModel_log (s : Store) (model : Model) :
    (s.UpdateModel model).2.2.log =
      s.log ++ [{ call := .updateModel model, err := (s.UpdateModel model).1 }] := by
  rcases hf : nextFault s.faults.updateModel with _ | e
  · rcases hm : s.modelAt model.key with _ | m <;>
      simp [Store.UpdateModel, hf, hm, Store.record]
  · simp [Store.UpdateModel, hf, Store.record]

theorem DeletePod_pods (s : Store) (pod : Pod) :
    (s.DeletePod pod).2.pods = s.pods ∨
    (s.DeletePod pod).2.pods = s.pods.filter (fun p => !p.hasKey pod.key) := by
  rcases hf : nextFault s.faults.deletePod with _ | e
  · by_cases hc : s.holdsPod pod.key = true <;> simp [Store.DeletePod, hf, hc, Store.record]
  · simp [Store.DeletePod, hf, Store.record]

theorem DeletePod_ok (s : Store) (pod : Pod) (h : (s.DeletePod pod).1 = none) :
    (s.DeletePod pod).2.pods = s.pods.filter (fun p => !p.hasKey pod.key) := by
  rcases hf : nextFault s.faults.deletePod with _ | e
  · by_cases hc : s.holdsPod pod.key = true
    · simp [Store.DeletePod, hf, hc, Store.record]
    · simp [Store.DeletePod, hf, hc] at h
  · simp [Store.DeletePod, hf] at h

theorem DeletePod_err (s : Store) (pod : Pod) (h : (s.DeletePod pod).1 ≠ none) :
    (s.DeletePod pod).2.pods = s.pods := by
  rcases hf : nextFault s.faults.deletePod with _ | e
  · by_cases hc : s.holdsPod pod.key = true
    · simp [Store.DeletePod, hf, hc] at h
    · simp [Store.DeletePod, hf, hc, Store.record]
  · simp [Store.DeletePod, hf, Store.record]

/-- What a Pod lookup can answer: the stored Pod, the error the server injects, or
not-found when nothing is stored under the key. -/
theorem GetPod_cases (s : Store) (key : ObjectKey) (obj : Pod) :
    ((s.GetPod key obj).1 = none ∧ key.Name ≠ "" ∧ s.podAt key = some (s.GetPod key obj).2.1) ∨
    (∃ e, (s.GetPod key obj).1 = some e ∧ nextFault s.faults.getPod = some e) ∨
    ((s.GetPod key obj).1 = some Err.notFound ∧ (key.Name = "" ∨ s.podAt key = none)) := by
  rcases hf : nextFault s.faults.getPod with _ | e
  · by_cases hn : key.Name = ""
    · right; right
      simp [Store.GetPod, hf, hn]
    · rcases hp : s.podAt key with _ | p
      · right; right
        simp [Store.GetPod, hf, hn, hp]
      · left
        simp [Store.GetPod, hf, hn, hp]
  · right; left
    exact ⟨e, by simp [Store.GetPod, hf], rfl⟩

theorem GetPod_frame (s : Store) (key : ObjectKey) (obj : Pod) :
    (s.GetPod key obj).2.2.pods = s.pods ∧ (s.GetPod key obj).2.2.models = s.models := by
  rcases hf : nextFault s.faults.getPod with _ | e
  · rcases hm : (if key.Name = "" then none else s.podAt key) with _ | m <;>
      simp [Store.GetPod, hf, hm, Store.record]
  · simp [Store.GetPod, hf, Store.record]

theorem podAt_hasKey (s : Store) (key : ObjectKey) (p : Pod) (h : s.podAt key = some p) :
    p.hasKey key = true := by
  unfold Store.podAt at h
  exact List.find?_some (p := fun q : Pod => q.hasKey key) h

theorem hasKey_iff (p : Pod) (key : ObjectKey) :
    p.hasKey key = true ↔ p.Namespace = key.Namespace ∧ p.Name = key.Name := by
  simp [Pod.hasKey]

theorem key_of_hasKey (p : Pod) (key : ObjectKey) (h : p.hasKey key = true) : p.key = key := by
  rw [hasKey_iff] at h
  cases key
  simp only [Pod.key] at *
  simp [h.1, h.2]

theorem ownedBy_namespace (key : ObjectKey) (p : Pod) (h : ownedBy key p = true) :
    p.Namespace = key.Namespace := by
  simp [ownedBy] at h
  exact h.1

/-- A tracked Pod is found by the lookup under the tracked name. -/
theorem tracked_podAt (key : ObjectKey) (name : String) (s : Store) (p : Pod)
    (ht : Tracked key name s.pods) (hp : p ∈ s.pods) (ho : ownedBy key p = true) :
    name ≠ "" ∧ s.podAt { Namespace := key.Namespace, Name := name } ≠ none := by
  obtain ⟨hn, hne⟩ := ht p hp ho
  refine ⟨hne, ?_⟩
  intro hnone
  unfold Store.podAt at hnone
  rw [List.find?_eq_none] at hnone
  have := hnone p hp
  simp [Pod.hasKey, hn, ownedBy_namespace key p ho] at this

theorem CreatePod_models (s : Store) (pod : Pod) : (s.CreatePod pod).2.2.models = s.models := by
  rcases hf : nextFault s.faults.createPod with _ | e
  · by_cases hc : s.holdsPod (s.named pod).key = true <;>
      simp [Store.CreatePod, hf, hc, Store.record]
  · simp [Store.CreatePod, hf, Store.record]

theorem createPod_models (r : ModelReconciler) (model : Model) (s : Store) :
    (createPod r model s).store.models = s.models := by
  rw [createPod_eq]
  rcases hc : (s.CreatePod (podToCreate r model)).1 with _ | e <;>
    exact CreatePod_models s (podToCreate r model)

theorem no_owned_filter (key : ObjectKey) (pods : List Pod)
    (h : ∀ p ∈ pods, ownedBy key p = false) : pods.filter (ownedBy key) = [] := by
  rw [List.filter_eq_nil_iff]
  intro p hp
  simp [h p hp]

/-- The create path on a store in which the Model owns no Pod: afterwards it owns at
most one, and the Model names it. -/
theorem createPod_tracks (r : ModelReconciler) (key : ObjectKey) (model : Model) (s : Store)
    (hnone : ∀ p ∈ s.pods, ownedBy key p = false) :
    ((createPod r model s).store.pods.filter (ownedBy key)).length ≤ 1 ∧
    Tracked key (lookupKey (createPod r model s).model).Name (createPod r model s).store.pods ∧
    (createPod r model s).model.Namespace = model.Namespace ∧
    (createPod r model s).model.Name = model.Name := by
  obtain ⟨e, _, _, hok, hfail⟩ := createPod_outcome r model s
  rcases he : e with _ | e'
  · obtain ⟨name, hne, hm, _, hpods, _⟩ := hok he
    rw [hm, hpods]
    refine ⟨?_, ?_, rfl, rfl⟩
    · rw [List.filter_append, no_owned_filter key s.pods hnone]
      simp only [List.nil_append]
      exact List.length_filter_le _ _
    · intro p hp ho
      rw [List.mem_append] at hp
      rcases hp with hp | hp
      · rw [hnone p hp] at ho
        exact absurd ho (by simp)
      · simp only [List.mem_singleton] at hp
        subst hp
        exact ⟨by simp [lookupKey], by simpa [lookupKey] using hne⟩
  · obtain ⟨hm, hpods⟩ := hfail (by simp [he])
    rw [hm, hpods]
    refine ⟨?_, ?_, rfl, rfl⟩
    · rw [no_owned_filter key s.pods hnone]
      simp
    · intro p hp ho
      rw [hnone p hp] at ho
      exact absurd ho (by simp)

theorem lookupKey_namespace (model : Model) : (lookupKey model).Namespace = model.Namespace := rfl

/-- The Pod pass on a store in which the Model owns at most one Pod and names it: the
same holds afterwards. -/
theorem reconcilePod_tracks (r : ModelReconciler) (key : ObjectKey) (model : Model) (s : Store)
    (hns : model.Namespace = key.Namespace)
    (hone : (s.pods.filter (ownedBy key)).length ≤ 1)
    (ht : Tracked key (lookupKey model).Name s.pods)
    (hget : nextFault s.faults.getPod ≠ some Err.notFound) :
    ((reconcilePod r model s).store.pods.filter (ownedBy key)).length ≤ 1 ∧
    Tracked key (lookupKey (reconcilePod r model s).model).Name
      (reconcilePod r model s).store.pods ∧
    (reconcilePod r model s).model.Namespace = model.Namespace ∧
    (reconcilePod r model s).model.Name = model.Name ∧
    (reconcilePod r model s).store.models = s.models := by
  obtain ⟨hpods, hmodels⟩ := GetPod_frame s (lookupKey model) Pod.empty
  have hkey : lookupKey model = { Namespace := key.Namespace, Name := (lookupKey model).Name } := by
    rw [← hns]; rfl
  rw [reconcilePod_eq]
  rcases GetPod_cases s (lookupKey model) Pod.empty with ⟨hc, hn, hat⟩ | ⟨e, hc, hf⟩ | ⟨hc, hmiss⟩
  · -- the lookup found a Pod
    simp only [hc]
    rw [updatePod_eq]
    by_cases heq : (s.GetPod (lookupKey model) Pod.empty).2.1.Spec =
        (modelToPod r model (s.GetPod (lookupKey model) Pod.empty).2.1).Spec
    · rw [if_pos heq]
      exact ⟨by rw [hpods]; exact hone, by rw [hpods]; exact ht, rfl, rfl, hmodels⟩
    · rw [if_neg heq]
      rcases hd : ((s.GetPod (lookupKey model) Pod.empty).2.2.DeletePod
          (s.GetPod (lookupKey model) Pod.empty).2.1).1 with _ | e
      · simp only []
        have hdp := DeletePod_ok _ _ hd
        have hk := key_of_hasKey _ _ (podAt_hasKey s _ _ hat)
        rw [hk, hpods] at hdp
        have hnone : ∀ p ∈ ((s.GetPod (lookupKey model) Pod.empty).2.2.DeletePod
            (s.GetPod (lookupKey model) Pod.empty).2.1).2.pods, ownedBy key p = false := by
          intro p hp
          rw [hdp, List.mem_filter] at hp
          by_contra ho
          simp only [Bool.not_eq_false] at ho
          obtain ⟨hname, _⟩ := ht p hp.1 ho
          have : p.hasKey (lookupKey model) = true := by
            rw [hasKey_iff]
            exact ⟨by rw [ownedBy_namespace key p ho, ← hns]; rfl, hname⟩
          simp [this] at hp
        obtain ⟨h1, h2, h3, h4⟩ := createPod_tracks r key model _ hnone
        refine ⟨h1, h2, h3, h4, ?_⟩
        rw [createPod_models, DeletePod_models, hmodels]
      · simp only []
        have hdp := DeletePod_err (s.GetPod (lookupKey model) Pod.empty).2.2
          (s.GetPod (lookupKey model) Pod.empty).2.1 (by simp [hd])
        refine ⟨by rw [hdp, hpods]; exact hone, by rw [hdp, hpods]; exact ht, by first | rfl | trivial, by first | rfl | trivial, ?_⟩
        rw [DeletePod_models, hmodels]
  · -- the server failed the lookup
    have hne : e ≠ Err.notFound := by
      intro h
      rw [h] at hf
      exact hget hf
    have hnf : (!IsNotFound e) = true := by
      cases e <;> simp [IsNotFound] at hne ⊢
    simp only [hc]
    rw [if_pos hnf]
    exact ⟨by rw [hpods]; exact hone, by rw [hpods]; exact ht, rfl, rfl, hmodels⟩
  · -- nothing is stored under the name
    simp only [hc]
    rw [if_neg (by simp [IsNotFound])]
    have hnone : ∀ p ∈ (s.GetPod (lookupKey model) Pod.empty).2.2.pods,
        ownedBy key p = false := by
      intro p hp
      rw [hpods] at hp
      by_contra ho
      simp only [Bool.not_eq_false] at ho
      obtain ⟨h1, h2⟩ := tracked_podAt key (lookupKey model).Name s p ht hp ho
      rw [← hkey] at h2
      rcases hmiss with hmiss | hmiss
      · exact h1 hmiss
      · exact h2 hmiss
    obtain ⟨h1, h2, h3, h4⟩ := createPod_tracks r key model _ hnone
    refine ⟨h1, h2, h3, h4, ?_⟩
    rw [createPod_models, hmodels]

theorem modelKey_of_hasKey (m : Model) (key : ObjectKey) (h : m.hasKey key = true) :
    m.key = key := by
  cases key
  simp only [Model.hasKey, Bool.and_eq_true, beq_iff_eq] at h
  simp [Model.key, h.1, h.2]

theorem modelAt_key (s : Store) (key : ObjectKey) (m : Model) (h : s.modelAt key = some m) :
    m.key = key :=
  modelKey_of_hasKey m key (List.find?_some (p := fun q : Model => q.hasKey key) h)

/-- After a Model was written back, the Model found under its key is the written one. -/
theorem find?_putModel (ms : List Model) (w x : Model) (key : ObjectKey) (hk : w.key = key)
    (h : (putModel ms w).find? (fun m => m.hasKey key) = some x) : x = w := by
  subst hk
  have hx : x.hasKey w.key = true := List.find?_some (p := fun q : Model => q.hasKey w.key) h
  have hmem : x ∈ putModel ms w := List.mem_of_find?_eq_some h
  unfold putModel at hmem
  by_cases hc : w.DeletionTimestamp.isSome = true ∧ w.Finalizers = []
  · rw [if_pos hc, List.mem_filter] at hmem
    simp [hx] at hmem
  · rw [if_neg hc, List.mem_map] at hmem
    obtain ⟨y, _, hy⟩ := hmem
    by_cases hyk : y.hasKey w.key = true
    · rw [if_pos hyk] at hy
      exact hy.symm
    · rw [if_neg hyk] at hy
      rw [← hy] at hx
      exact absurd hx hyk

theorem PatchModel_pods (s : Store) (obj base : Model) :
    (s.PatchModel obj base).2.2.pods = s.pods := by
  rcases hf : nextFault s.faults.patchModel with _ | e
  · rcases hm : s.modelAt obj.key with _ | stored <;>
      simp [Store.PatchModel, hf, hm, Store.record]
  · simp [Store.PatchModel, hf, Store.record]

/-- The main patch keeps the status of the stored Model. -/
theorem PatchModel_status (s : Store) (obj base : Model) (key : ObjectKey) (hobj : obj.key = key)
    (w : Model) (hw : (s.PatchModel obj base).2.2.modelAt key = some w) :
    ∃ w0, s.modelAt key = some w0 ∧ w.Status = w0.Status := by
  rcases hf : nextFault s.faults.patchModel with _ | e
  · rcases hm : s.modelAt obj.key with _ | stored
    · simp only [Store.PatchModel, hf, hm, Store.record] at hw
      exact ⟨w, hw, rfl⟩
    · simp only [Store.PatchModel, hf, hm, Store.record] at hw
      have hsk : stored.key = key := by rw [← hobj]; exact modelAt_key s _ _ hm
      simp only [Store.modelAt] at hw
      have := find?_putModel s.models _ w key (by exact hsk) hw
      rw [hobj] at hm
      exact ⟨stored, hm, by rw [this]⟩
  · simp only [Store.PatchModel, hf, Store.record] at hw
    exact ⟨w, hw, rfl⟩

theorem PatchStatus_pods (s : Store) (obj base : Model) :
    (s.PatchStatus obj base).2.2.pods = s.pods := by
  rcases hf : nextFault s.faults.patchStatus with _ | e
  · rcases hm : s.modelAt obj.key with _ | stored <;>
      simp [Store.PatchStatus, hf, hm, Store.record]
  · simp [Store.PatchStatus, hf, Store.record]

theorem PatchStatus_key (s : Store) (obj base : Model) :
    (s.PatchStatus obj base).2.1.key = obj.key := by
  rcases hf : nextFault s.faults.patchStatus with _ | e
  · rcases hm : s.modelAt obj.key with _ | stored
    · simp [Store.PatchStatus, hf, hm, Store.record]
    · have hsk : stored.key = obj.key := modelAt_key s _ _ hm
      simp only [Store.PatchStatus, hf, hm, Store.record]
      exact hsk
  · simp [Store.PatchStatus, hf, Store.record]

/-- When the status patch is not failed by the server, or carries no change of the
reference, the stored Model afterwards holds the reference of the patched object. -/
theorem PatchStatus_podRef (s : Store) (obj base : Model) (key : ObjectKey)
    (hobj : obj.key = key)
    (hbase : ∀ st, s.modelAt key = some st → st.Status.PodRef = base.Status.PodRef)
    (hno : nextFault s.faults.patchStatus = none ∨ obj.Status.PodRef = base.Status.PodRef)
    (w : Model) (hw : (s.PatchStatus obj base).2.2.modelAt key = some w) :
    w.Status.PodRef = obj.Status.PodRef := by
  rcases hf : nextFault s.faults.patchStatus with _ | e
  · rcases hm : s.modelAt obj.key with _ | stored
    · simp only [Store.PatchStatus, hf, hm, Store.record] at hw
      rw [hobj] at hm
      simp only [Store.modelAt] at hw hm
      rw [hm] at hw
      exact absurd hw (by simp)
    · have hsk : stored.key = key := by rw [← hobj]; exact modelAt_key s _ _ hm
      have hsp : stored.Status.PodRef = base.Status.PodRef :=
        hbase stored (by rw [← hobj]; exact hm)
      have hpr : (if base.Status.PodRef ≠ obj.Status.PodRef then obj.Status.PodRef
          else stored.Status.PodRef) = obj.Status.PodRef := by
        by_cases hc : base.Status.PodRef = obj.Status.PodRef
        · simp [hc, hsp]
        · simp [hc]
      simp only [Store.PatchStatus, hf, hm, Store.record] at hw
      simp only [Store.modelAt] at hw
      have := find?_putModel s.models _ w key (by exact hsk) hw
      rw [this]
      exact hpr
  · rcases hno with hno | hno
    · simp [hf] at hno
    · simp only [Store.PatchStatus, hf, Store.record] at hw
      rw [hbase w hw, hno]

/-- The deferred patches leave the Pods alone; when the status patch is not failed by
the server, or carries no change of the reference, the Model stored afterwards holds
the reference of the patched object. -/
theorem deferredPatch_spec (s : Store) (obj base : Model) (key : ObjectKey) (hobj : obj.key = key)
    (hbase : ∀ st, s.modelAt key = some st → st.Status.PodRef = base.Status.PodRef)
    (hno : nextFault s.faults.patchStatus = none ∨ obj.Status.PodRef = base.Status.PodRef) :
    (deferredPatch base obj s).pods = s.pods ∧
    ∀ w, (deferredPatch base obj s).modelAt key = some w →
      w.Status.PodRef = obj.Status.PodRef := by
  refine ⟨?_, fun w hw => ?_⟩
  · show ((s.PatchStatus obj base).2.2.PatchModel (s.PatchStatus obj base).2.1 base).2.2.pods = _
    rw [PatchModel_pods, PatchStatus_pods]
  · obtain ⟨w0, hw0, hst⟩ := PatchModel_status (s.PatchStatus obj base).2.2
      (s.PatchStatus obj base).2.1 base key (by rw [PatchStatus_key, hobj]) w hw
    rw [hst]
    exact PatchStatus_podRef s obj base key hobj hbase hno w0 hw0

theorem withPatchFaults_self (s : Store) :
    s.withPatchFaults s.faults.patchStatus s.faults.patchModel = s := rfl

theorem reconcileNormal_patchStatus (r : ModelReconciler) (model : Model) (s : Store) :
    (reconcileNormal r model s).store.faults.patchStatus = s.faults.patchStatus := by
  have h := reconcileNormal_withPatchFaults r model s s.faults.patchStatus s.faults.patchModel
  rw [withPatchFaults_self] at h
  exact congrArg (fun o => o.store.faults.patchStatus) h

theorem GetModel_frame (s : Store) (key : ObjectKey) (obj : Model) :
    (s.GetModel key obj).2.2.pods = s.pods ∧ (s.GetModel key obj).2.2.models = s.models ∧
    (s.GetModel key obj).2.2.faults.getPod = s.faults.getPod ∧
    (s.GetModel key obj).2.2.faults.patchStatus = s.faults.patchStatus := by
  rcases hf : nextFault s.faults.getModel with _ | e
  · rcases hm : s.modelAt key with _ | m <;>
      simp [Store.GetModel, hf, hm, Store.record]
  · simp [Store.GetModel, hf, Store.record]

theorem GetModel_ok (s : Store) (key : ObjectKey) (obj : Model)
    (h : (s.GetModel key obj).1 = none) :
    s.modelAt key = some (s.GetModel key obj).2.1 := by
  rcases hf : nextFault s.faults.getModel with _ | e
  · rcases hm : s.modelAt key with _ | m
    · simp [Store.GetModel, hf, hm] at h
    · simp [Store.GetModel, hf, hm]
  · simp [Store.GetModel, hf] at h

theorem UpdateModel_frame (s : Store) (model : Model) :
    (s.UpdateModel model).2.2.pods = s.pods ∧
    (s.UpdateModel model).2.2.faults.getPod = s.faults.getPod := by
  rcases hf : nextFault s.faults.updateModel with _ | e
  · rcases hm : s.modelAt model.key with _ | m <;>
      simp [Store.UpdateModel, hf, hm, Store.record]
  · simp [Store.UpdateModel, hf, Store.record]

theorem UpdateModel_fail (s : Store) (model : Model) (e : Err)
    (h : (s.UpdateModel model).1 = some e) :
    (s.UpdateModel model).2.1 = model ∧ (s.UpdateModel model).2.2.models = s.models := by
  rcases hf : nextFault s.faults.updateModel with _ | e'
  · rcases hm : s.modelAt model.key with _ | m
    · simp [Store.UpdateModel, hf, hm, Store.record]
    · simp [Store.UpdateModel, hf, hm] at h
  · simp [Store.UpdateModel, hf, Store.record]

theorem UpdateModel_done (s : Store) (model : Model) (h : (s.UpdateModel model).1 = none) :
    ∃ stored, s.modelAt model.key = some stored ∧
      (s.UpdateModel model).2.1 = { model with Status := stored.Status } ∧
      (s.UpdateModel model).2.2.models =
        putModel s.models { model with Status := stored.Status } := by
  rcases hf : nextFault s.faults.updateModel with _ | e
  · rcases hm : s.modelAt model.key with _ | m
    · simp [Store.UpdateModel, hf, hm] at h
    · exact ⟨m, rfl, by simp [Store.UpdateModel, hf, hm, Store.record]⟩
  · simp [Store.UpdateModel, hf] at h

theorem AddFinalizer_frame (m : Model) (f : String) :
    (AddFinalizer m f).Namespace = m.Namespace ∧ (AddFinalizer m f).Name = m.Name ∧
    (AddFinalizer m f).Status = m.Status := by
  unfold AddFinalizer
  split <;> exact ⟨rfl, rfl, rfl⟩

theorem lookupKey_name_congr (a b : Model) (h : a.Status.PodRef = b.Status.PodRef) :
    (lookupKey a).Name = (lookupKey b).Name := by
  simp only [lookupKey, h]

theorem tracked_of_sublist (key : ObjectKey) (name : String) (l1 l2 : List Pod)
    (hs : List.Sublist l1 l2) (ht : Tracked key name l2) : Tracked key name l1 :=
  fun p hp ho => ht p (hs.subset hp) ho

theorem owned_of_sublist (key : ObjectKey) (l1 l2 : List Pod) (hs : List.Sublist l1 l2) :
    (l1.filter (ownedBy key)).length ≤ (l2.filter (ownedBy key)).length :=
  (hs.filter (ownedBy key)).length_le

/-- The normal pass on a store in which the Model owns at most one Pod and names it:
the same holds afterwards, and the stored Model still holds the reference it held. -/
theorem reconcileNormal_tracks (r : ModelReconciler) (key : ObjectKey) (model : Model)
    (s : Store) (hkey : model.key = key) (hst : s.modelAt key = some model)
    (hone : (s.pods.filter (ownedBy key)).length ≤ 1)
    (ht : Tracked key (lookupKey model).Name s.pods)
    (hget : nextFault s.faults.getPod ≠ some Err.notFound) :
    ((reconcileNormal r model s).store.pods.filter (ownedBy key)).length ≤ 1 ∧
    Tracked key (lookupKey (reconcileNormal r model s).model).Name
      (reconcileNormal r model s).store.pods ∧
    (reconcileNormal r model s).model.key = key ∧
    ∀ st, (reconcileNormal r model s).store.modelAt key = some st →
      st.Status.PodRef = model.Status.PodRef := by
  have hns : model.Namespace = key.Namespace := by rw [← hkey]; rfl
  by_cases hfin : ContainsFinalizer model ModelFinalizer = true
  · rw [reconcileNormal_of_finalizer r model s hfin]
    obtain ⟨h1, h2, h3, h4, h5⟩ := reconcilePod_tracks r key model s hns hone ht hget
    refine ⟨h1, h2, ?_, fun st hs => ?_⟩
    · rw [← hkey]
      simp only [Model.key, h3, h4]
    · simp only [Store.modelAt, h5] at hs
      simp only [Store.modelAt] at hst
      rw [hst] at hs
      cases hs
      rfl
  · have hfin2 : ContainsFinalizer model ModelFinalizer = false := by
      simpa using hfin
    obtain ⟨ha1, ha2, ha3⟩ := AddFinalizer_frame model ModelFinalizer
    have hak : (AddFinalizer model ModelFinalizer).key = key := by
      rw [← hkey]
      simp only [Model.key, ha1, ha2]
    obtain ⟨hup, hug⟩ := UpdateModel_frame s (AddFinalizer model ModelFinalizer)
    rw [reconcileNormal_of_no_finalizer r model s hfin2]
    rcases hc : (s.UpdateModel (AddFinalizer model ModelFinalizer)).1 with _ | e
    · obtain ⟨stored, hs1, hs2, hs3⟩ := UpdateModel_done s _ hc
      rw [hak, hst] at hs1
      cases hs1
      have hwk : (s.UpdateModel (AddFinalizer model ModelFinalizer)).2.1.key = key := by
        rw [hs2]
        exact hak
      have hwn : (s.UpdateModel (AddFinalizer model ModelFinalizer)).2.1.Namespace =
          key.Namespace := by
        rw [← hwk]; rfl
      have hws : (s.UpdateModel (AddFinalizer model ModelFinalizer)).2.1.Status =
          model.Status := by
        rw [hs2]
      have hwl : (lookupKey (s.UpdateModel (AddFinalizer model ModelFinalizer)).2.1).Name =
          (lookupKey model).Name := lookupKey_name_congr _ _ (by rw [hws])
      obtain ⟨h1, h2, h3, h4, h5⟩ := reconcilePod_tracks r key
        (s.UpdateModel (AddFinalizer model ModelFinalizer)).2.1
        (s.UpdateModel (AddFinalizer model ModelFinalizer)).2.2 hwn
        (by rw [hup]; exact hone) (by rw [hup, hwl]; exact ht) (by rw [hug]; exact hget)
      refine ⟨h1, h2, ?_, fun st hs => ?_⟩
      · rw [← hwk]
        simp only [Model.key, h3, h4]
      · simp only [Store.modelAt, h5, hs3] at hs
        have := find?_putModel s.models _ st key (by exact hak) hs
        rw [this]
    · obtain ⟨hf1, hf2⟩ := UpdateModel_fail s _ e hc
      refine ⟨?_, ?_, ?_, fun st hs => ?_⟩
      · show ((s.UpdateModel (AddFinalizer model ModelFinalizer)).2.2.pods.filter _).length ≤ 1
        rw [hup]; exact hone
      · show Tracked key (lookupKey (s.UpdateModel (AddFinalizer model ModelFinalizer)).2.1).Name
          (s.UpdateModel (AddFinalizer model ModelFinalizer)).2.2.pods
        rw [hup, hf1, lookupKey_name_congr _ model (by rw [ha3])]
        exact ht
      · show (s.UpdateModel (AddFinalizer model ModelFinalizer)).2.1.key = key
        rw [hf1]; exact hak
      · have hs2 : (s.UpdateModel (AddFinalizer model ModelFinalizer)).2.2.modelAt key =
            some st := hs
        simp only [Store.modelAt, hf2] at hs2
        simp only [Store.modelAt] at hst
        rw [hst] at hs2
        cases hs2
        rfl

/-- The teardown touches no Model, removes Pods at most, and leaves the status and the
key of the Model it was given. -/
theorem reconcileDelete_frame (r : ModelReconciler) (model : Model) (s : Store) :
    (reconcileDelete r model s).store.models = s.models ∧
    List.Sublist (reconcileDelete r model s).store.pods s.pods ∧
    (reconcileDelete r model s).model.Status = model.Status ∧
    (reconcileDelete r model s).model.key = model.key := by
  unfold reconcileDelete
  obtain ⟨hgp, hgm⟩ := GetPod_frame s { Namespace := model.Namespace, Name := model.Name }
    Pod.empty
  have hdm := DeletePod_models
    (s.GetPod { Namespace := model.Namespace, Name := model.Name } Pod.empty).2.2
    (s.GetPod { Namespace := model.Namespace, Name := model.Name } Pod.empty).2.1
  have hdp : List.Sublist
      ((s.GetPod { Namespace := model.Namespace, Name := model.Name } Pod.empty).2.2.DeletePod
        (s.GetPod { Namespace := model.Namespace, Name := model.Name } Pod.empty).2.1).2.pods
      s.pods := by
    rcases DeletePod_pods
      (s.GetPod { Namespace := model.Namespace, Name := model.Name } Pod.empty).2.2
      (s.GetPod { Namespace := model.Namespace, Name := model.Name } Pod.empty).2.1 with h | h
    · rw [h, hgp]
    · rw [h, hgp]; exact List.filter_sublist _
  by_cases hfin : (!ContainsFinalizer model ModelFinalizer) = true
  · rw [if_pos hfin]
    exact ⟨rfl, List.Sublist.refl _, rfl, rfl⟩
  · rw [if_neg hfin]
    dsimp only
    by_cases hg : otherThanNotFound
        (s.GetPod { Namespace := model.Namespace, Name := model.Name } Pod.empty).1 = true
    · rw [if_pos hg]
      exact ⟨hgm, by rw [hgp], rfl, rfl⟩
    · rw [if_neg hg]
      by_cases hd : otherThanNotFound
          ((s.GetPod { Namespace := model.Namespace, Name := model.Name } Pod.empty).2.2.DeletePod
            (s.GetPod { Namespace := model.Namespace, Name := model.Name } Pod.empty).2.1).1 = true
      · rw [if_pos hd]
        exact ⟨by rw [← hgm]; exact hdm, hdp, rfl, rfl⟩
      · rw [if_neg hd]
        exact ⟨by rw [← hgm]; exact hdm, hdp, rfl, rfl⟩

theorem find?_withSpec (key : ObjectKey) (spec : ModelSpec) (ms : List Model) (w : Model)
    (h : (withSpec key spec ms).find? (fun m => m.hasKey key) = some w) :
    ∃ w0, ms.find? (fun m => m.hasKey key) = some w0 ∧ w.Status = w0.Status := by
  induction ms with
  | nil => simp [withSpec] at h
  | cons m ms ih =>
    have hcons : withSpec key spec (m :: ms) =
        (if m.hasKey key then { m with Spec := spec } else m) :: withSpec key spec ms := rfl
    rw [hcons] at h
    by_cases hk : m.hasKey key = true
    · have hk2 : ({ m with Spec := spec } : Model).hasKey key = true := hk
      rw [if_pos hk, List.find?_cons_of_pos (p := fun q : Model => q.hasKey key) _ hk2] at h
      rw [List.find?_cons_of_pos (p := fun q : Model => q.hasKey key) _ hk]
      refine ⟨m, rfl, ?_⟩
      rw [← Option.some.inj h]
    · rw [if_neg hk, List.find?_cons_of_neg (p := fun q : Model => q.hasKey key) _ hk] at h
      rw [List.find?_cons_of_neg (p := fun q : Model => q.hasKey key) _ hk]
      exact ih h

/-- A `Reconcile` pass whose status patch is not failed by the server and whose Pod
lookup is not answered not-found by the server on its own keeps the invariant. -/
theorem Reconcile_keeps_PodInvariant (r : ModelReconciler) (req : Request) (s : Store)
    (hinv : PodInvariant req.NamespacedName s)
    (hget : nextFault s.faults.getPod ≠ some Err.notFound)
    (hpatch : nextFault s.faults.patchStatus = none) :
    PodInvariant req.NamespacedName (Reconcile r req s).2 := by
  obtain ⟨hone, htr⟩ := hinv
  obtain ⟨hgp, hgm, hgg, hgs⟩ := GetModel_frame s req.NamespacedName Model.empty
  rw [Reconcile_eq]
  rcases hc : (s.GetModel req.NamespacedName Model.empty).1 with _ | e
  · have hst := GetModel_ok s req.NamespacedName Model.empty hc
    have hkey := modelAt_key s _ _ hst
    have ht := htr _ hst
    have hst2 : (s.GetModel req.NamespacedName Model.empty).2.2.modelAt req.NamespacedName =
        some (s.GetModel req.NamespacedName Model.empty).2.1 := by
      simp only [Store.modelAt, hgm]
      exact hst
    dsimp only
    by_cases hdel : (s.GetModel req.NamespacedName Model.empty).2.1.DeletionTimestamp.isSome = true
    · rw [if_pos hdel]
      obtain ⟨hm, hsub, hstat, _⟩ := reconcileDelete_frame r
        (s.GetModel req.NamespacedName Model.empty).2.1
        (s.GetModel req.NamespacedName Model.empty).2.2
      rw [hgp] at hsub
      obtain ⟨hp, hw⟩ := deferredPatch_spec
        (reconcileDelete r (s.GetModel req.NamespacedName Model.empty).2.1
          (s.GetModel req.NamespacedName Model.empty).2.2).store
        (s.GetModel req.NamespacedName Model.empty).2.1
        (reconcileDelete r (s.GetModel req.NamespacedName Model.empty).2.1
          (s.GetModel req.NamespacedName Model.empty).2.2).model
        req.NamespacedName hkey
        (fun st hs => by
          simp only [Store.modelAt, hm] at hs
          simp only [Store.modelAt] at hst2
          rw [hst2] at hs
          cases hs
          rw [hstat])
        (Or.inr (by rw [hstat]))
      refine ⟨?_, fun w hws => ?_⟩
      · show (List.filter _ (deferredPatch _ _ _).pods).length ≤ 1
        rw [hp]
        exact le_trans (owned_of_sublist _ _ _ hsub) hone
      · show Tracked _ _ (deferredPatch _ _ _).pods
        rw [hp, lookupKey_name_congr w _ (hw w hws)]
        exact tracked_of_sublist _ _ _ _ hsub ht
    · rw [if_neg hdel]
      obtain ⟨h1, h2, h3, h4⟩ := reconcileNormal_tracks r req.NamespacedName
        (s.GetModel req.NamespacedName Model.empty).2.1
        (s.GetModel req.NamespacedName Model.empty).2.2 hkey hst2
        (by rw [hgp]; exact hone) (by rw [hgp]; exact ht) (by rw [hgg]; exact hget)
      obtain ⟨hp, hw⟩ := deferredPatch_spec
        (reconcileNormal r (s.GetModel req.NamespacedName Model.empty).2.1
          (s.GetModel req.NamespacedName Model.empty).2.2).store
        (reconcileNormal r (s.GetModel req.NamespacedName Model.empty).2.1
          (s.GetModel req.NamespacedName Model.empty).2.2).model
        (s.GetModel req.NamespacedName Model.empty).2.1
        req.NamespacedName h3 h4
        (Or.inl (by rw [reconcileNormal_patchStatus, hgs]; exact hpatch))
      refine ⟨?_, fun w hws => ?_⟩
      · show (List.filter _ (deferredPatch _ _ _).pods).length ≤ 1
        rw [hp]
        exact h1
      · show Tracked _ _ (deferredPatch _ _ _).pods
        rw [hp, lookupKey_name_congr w _ (hw w hws)]
        exact h2
  · dsimp only
    refine ⟨?_, fun w hws => ?_⟩
    · show (List.filter _ (s.GetModel req.NamespacedName Model.empty).2.2.pods).length ≤ 1
      rw [hgp]
      exact hone
    · show Tracked _ _ (s.GetModel req.NamespacedName Model.empty).2.2.pods
      rw [hgp]
      refine htr w ?_
      have hws2 : (s.GetModel req.NamespacedName Model.empty).2.2.modelAt req.NamespacedName =
          some w := hws
      simp only [Store.modelAt, hgm] at hws2
      exact hws2

/-- Every step keeps the invariant. -/
theorem Step_keeps_PodInvariant (r : ModelReconciler) (req : Request) (s t : Store)
    (hstep : Step r req s t) (hinv : PodInvariant req.NamespacedName s) :
    PodInvariant req.NamespacedName t := by
  cases hstep with
  | pass hget hpatch => exact Reconcile_keeps_PodInvariant r req s hinv hget hpatch
  | specChange spec =>
    refine ⟨hinv.1, fun w hw => ?_⟩
    obtain ⟨w0, h1, h2⟩ := find?_withSpec req.NamespacedName spec s.models w hw
    show Tracked _ _ s.pods
    rw [lookupKey_name_congr w w0 (by rw [h2])]
    exact hinv.2 w0 h1
  | setFaults f => exact hinv

/-- A store in which the Model owns no Pod satisfies the invariant. -/
theorem PodInvariant_of_no_owned (key : ObjectKey) (s : Store) (h : s.ownedPods key = []) :
    PodInvariant key s := by
  refine ⟨by rw [h]; exact Nat.zero_le 1, fun m _ p hp ho => ?_⟩
  have hmem : p ∈ s.ownedPods key := List.mem_filter.mpr ⟨hp, ho⟩
  rw [h] at hmem
  exact absurd hmem (List.not_mem_nil p)

/-- Every reachable store satisfies the invariant. -/
theorem Reachable_PodInvariant (r : ModelReconciler) (req : Request) (s0 s : Store)
    (h0 : s0.ownedPods req.NamespacedName = []) (hr : Reachable r req s0 s) :
    PodInvariant req.NamespacedName s := by
  induction hr with
  | init => exact PodInvariant_of_no_owned _ _ h0
  | step s t _ hstep ih => exact Step_keeps_PodInvariant r req s t hstep ih

/-- When the server answers not-found to the lookup of a Pod that is stored, the pass
creates a second Pod for the Model: the invariant needs lookups answered from the store. -/
theorem not_found_for_stored_pod_gives_two_pods :
    (staleLookupStore.ownedPods exampleRequest.NamespacedName).map (fun p => p.Name) =
      ["m-0"] ∧
    ((Reconcile exampleReconciler exampleRequest staleLookupStore).2.ownedPods
      exampleRequest.NamespacedName).map (fun p => p.Name) = ["m-0", "m-1"] := by
  decide

/-! ## C1 -/

/-- C1: on the failing input (deletion requested, finalizer present, every store call
succeeding) `Reconcile` succeeds, yet both deferred patches are given an object whose
finalizer list is the loaded one, `sivchari.io/model` included, and the stored Model
keeps the finalizer: `reconcileDelete` was run on `model`, not on `newModel`. -/
theorem C1_patched_object_keeps_finalizer :
    deletingModel.DeletionTimestamp.isSome = true ∧
    ContainsFinalizer deletingModel ModelFinalizer = true ∧
    (Reconcile exampleReconciler exampleRequest deletingStore).1 = none ∧
    (Reconcile exampleReconciler exampleRequest deletingStore).2.log.all
      (fun e => e.err.isNone) = true ∧
    (Reconcile exampleReconciler exampleRequest deletingStore).2.log.filterMap
      Event.patchedFinalizers = [deletingModel.Finalizers, deletingModel.Finalizers] ∧
    deletingModel.Finalizers = [ModelFinalizer] ∧
    (Reconcile exampleReconciler exampleRequest deletingStore).2.models.map
      (fun m => m.Finalizers) = [[ModelFinalizer]] := by
  decide

/-! ## C2 -/

/-- C2: on the failing input `reconcileDelete` returns success and removes the
finalizer while the dependent Pod `m-0`, created by the create path and recorded in
`status.podRef`, is still in the store: the lookup and the delete went to the name of
the Model. -/
theorem C2_finalizer_removed_while_pod_exists :
    createdOutcome.err = none ∧
    deletingModel.Status.PodRef = some { Name := "m-0", Namespace := "default" } ∧
    (deletingStore.podAt { Namespace := "default", Name := "m-0" }).isSome = true ∧
    ContainsFinalizer deletingModel ModelFinalizer = true ∧
    (reconcileDelete exampleReconciler deletingModel deletingStore).err = none ∧
    ContainsFinalizer (reconcileDelete exampleReconciler deletingModel deletingStore).model
      ModelFinalizer = false ∧
    ((reconcileDelete exampleReconciler deletingModel deletingStore).store.podAt
      { Namespace := "default", Name := "m-0" }).isSome = true ∧
    (reconcileDelete exampleReconciler deletingModel deletingStore).store.log.map
      (fun e => e.call) =
      [Call.getPod { Namespace := "default", Name := "m" }, Call.deletePod namesakePod] := by
  decide

/-! ## C3 -/

/-- C3: on the failing input (`spec.paused` true, no deletion intent, no Pod)
`reconcileNormal` issues a Pod create, the Pod is stored and `status.podRef` is set:
`Paused` is never read. -/
theorem C3_paused_model_is_provisioned :
    pausedModel.Spec.Paused = some true ∧
    pausedModel.DeletionTimestamp = none ∧
    pausedStore.pods = [] ∧
    (reconcileNormal exampleReconciler pausedModel pausedStore).err = none ∧
    ((reconcileNormal exampleReconciler pausedModel pausedStore).store.log.filter
      Event.isCreate).length = 1 ∧
    (reconcileNormal exampleReconciler pausedModel pausedStore).model.Status.PodRef =
      some { Name := "m-0", Namespace := "default" } ∧
    (reconcileNormal exampleReconciler pausedModel pausedStore).store.pods.map
      (fun p => p.Name) = ["m-0"] := by
  decide

/-! ## C4 -/

/-- C4: on the failing input (the Pod named by `status.podRef` carries the node
selector of a template that the Model's spec no longer declares) a `reconcileNormal`
pass in which every store call succeeds issues the lookup and nothing else, and the
Pod named by `status.podRef` keeps a spec that is not `render` of the Model: the
stale node selector survives, the Pod is not replaced. -/
theorem C4_stale_passthrough_not_replaced :
    untemplatedModel.Spec.Template = none ∧
    (reconcileNormal exampleReconciler untemplatedModel untemplatedStore).err = none ∧
    (reconcileNormal exampleReconciler untemplatedModel untemplatedStore).store.log =
      [{ call := Call.getPod { Namespace := "default", Name := "m-0" }, err := none }] ∧
    (reconcileNormal exampleReconciler untemplatedModel untemplatedStore).model.Status.PodRef =
      some { Name := "m-0", Namespace := "default" } ∧
    (((reconcileNormal exampleReconciler untemplatedModel untemplatedStore).store.podAt
      { Namespace := "default", Name := "m-0" }).map (fun p => p.Spec.NodeSelector)) =
      some [("gpu", "true")] ∧
    (render exampleReconciler untemplatedModel).NodeSelector = [] ∧
    (((reconcileNormal exampleReconciler untemplatedModel untemplatedStore).store.podAt
      { Namespace := "default", Name := "m-0" }).map (fun p => p.Spec)) ≠
      some (render exampleReconciler untemplatedModel) := by
  decide

/-! ## C5 -/

/-- C5: for every list of images, whatever the reconciler and the Pod rendered onto,
the rendered Pod has one container whose post-start exec command is
`["/bin/sh", "-c", s]`, `s` being `pullScript` of the images: the entries
`ollama pull <image>;` in input order, empty and repeated images included, nothing
between or after them. -/
theorem C5_postStart_command (r : ModelReconciler) (model : Model) (pod : Pod) :
    (modelToPod r model pod).Spec.Containers.map Container.postStartCommand =
      [some ["/bin/sh", "-c", pullScript model.Spec.Images]] ∧
    pullScript ["llama3"] = "ollama pull llama3;" ∧
    pullScript ["llama3", "x"] = "ollama pull llama3;ollama pull x;" ∧
    pullScript ["", "a", "a"] = "ollama pull ;ollama pull a;ollama pull a;" := by
  refine ⟨?_, by decide, by decide, by decide⟩
  simp [modelToPod, Container.postStartCommand, execute_postStartScript]

/-! ## C6 -/

/-- C6 (amended): when the spec of the existing Pod differs from the spec re-rendered
onto it, `updatePod` issues one delete of that Pod; if the delete fails its error is
returned, nothing else is issued and the Model is unchanged; if it succeeds, one create
follows, of a new Pod whose spec is `render` of the Model (the rendering on a fresh
empty Pod), the error of the create is returned, and on success `status.podRef` names
the new Pod, which is stored with that spec. -/
theorem C6_updatePod_recreates (r : ModelReconciler) (model : Model) (pod : Pod) (s : Store)
    (h : pod.Spec ≠ (modelToPod r model pod).Spec) :
    ((s.DeletePod pod).1 ≠ none →
      (updatePod r model pod s).err = (s.DeletePod pod).1 ∧
      (updatePod r model pod s).store.log =
        s.log ++ [{ call := .deletePod pod, err := (s.DeletePod pod).1 }] ∧
      (updatePod r model pod s).model = model) ∧
    ((s.DeletePod pod).1 = none →
      ∃ e : Option Err,
        (updatePod r model pod s).store.log =
          s.log ++ [{ call := .deletePod pod, err := none },
                    { call := .createPod (podToCreate r model), err := e }] ∧
        (podToCreate r model).Spec = render r model ∧
        (updatePod r model pod s).err = e ∧
        (e = none → ∃ name : String, name ≠ "" ∧
          (updatePod r model pod s).model.Status.PodRef =
            some { Name := name, Namespace := model.Namespace } ∧
          (updatePod r model pod s).store.podAt { Namespace := model.Namespace, Name := name } =
            some { podToCreate r model with Name := name }) ∧
        (e ≠ none → (updatePod r model pod s).model = model)) := by
  rw [updatePod_eq, if_neg h]
  have hl := DeletePod_log s pod
  constructor
  · intro hd
    rcases hc : (s.DeletePod pod).1 with _ | e
    · exact absurd hc hd
    · simp only [hc] at hl ⊢
      exact ⟨trivial, hl, trivial⟩
  · intro hd
    simp only [hd] at hl ⊢
    obtain ⟨e, hlog, herr, hok, hfail⟩ := createPod_outcome r model (s.DeletePod pod).2
    refine ⟨e, ?_, podToCreate_spec r model, herr, ?_, ?_⟩
    · rw [hlog, hl]; simp
    · intro he
      obtain ⟨name, hne, hm, hat, _, _⟩ := hok he
      exact ⟨name, hne, by rw [hm], hat⟩
    · intro he
      exact (hfail he).1

/-- C6 (as stated, refuted): the existing Pod `m-0` is the one named by
`status.podRef` and its spec differs from the spec re-rendered onto it; `updatePod`
deletes it and creates a new Pod, but the spec of the created Pod is not the
re-rendered spec: re-rendering onto the existing Pod keeps its node selector, the
created Pod is rendered on a fresh Pod and has none. -/
theorem C6_created_spec_is_not_rerendered_spec :
    twoImageStore.podAt { Namespace := "default", Name := "m-0" } = some selectorPod ∧
    twoImageModel.Status.PodRef = some { Name := "m-0", Namespace := "default" } ∧
    selectorPod.Spec ≠ (modelToPod exampleReconciler twoImageModel selectorPod).Spec ∧
    (updatePod exampleReconciler twoImageModel selectorPod twoImageStore).err = none ∧
    (updatePod exampleReconciler twoImageModel selectorPod twoImageStore).store.log =
      [{ call := Call.deletePod selectorPod, err := none },
       { call := Call.createPod (podToCreate exampleReconciler twoImageModel), err := none }] ∧
    (podToCreate exampleReconciler twoImageModel).Spec ≠
      (modelToPod exampleReconciler twoImageModel selectorPod).Spec ∧
    (modelToPod exampleReconciler twoImageModel selectorPod).Spec.NodeSelector =
      [("gpu", "true")] ∧
    (podToCreate exampleReconciler twoImageModel).Spec.NodeSelector = [] := by
  decide

/-- C6 (amended), applied to the Pod `m-0` and the Model with a second image. -/
theorem C6_updatePod_recreates_witness :
    selectorPod.Spec ≠ (modelToPod exampleReconciler twoImageModel selectorPod).Spec ∧
    (twoImageStore.DeletePod selectorPod).1 = none ∧
    (((twoImageStore.DeletePod selectorPod).1 ≠ none →
      (updatePod exampleReconciler twoImageModel selectorPod twoImageStore).err =
        (twoImageStore.DeletePod selectorPod).1 ∧
      (updatePod exampleReconciler twoImageModel selectorPod twoImageStore).store.log =
        twoImageStore.log ++
          [{ call := .deletePod selectorPod, err := (twoImageStore.DeletePod selectorPod).1 }] ∧
      (updatePod exampleReconciler twoImageModel selectorPod twoImageStore).model =
        twoImageModel) ∧
    ((twoImageStore.DeletePod selectorPod).1 = none →
      ∃ e : Option Err,
        (updatePod exampleReconciler twoImageModel selectorPod twoImageStore).store.log =
          twoImageStore.log ++
            [{ call := .deletePod selectorPod, err := none },
             { call := .createPod (podToCreate exampleReconciler twoImageModel), err := e }] ∧
        (podToCreate exampleReconciler twoImageModel).Spec =
          render exampleReconciler twoImageModel ∧
        (updatePod exampleReconciler twoImageModel selectorPod twoImageStore).err = e ∧
        (e = none → ∃ name : String, name ≠ "" ∧
          (updatePod exampleReconciler twoImageModel selectorPod twoImageStore).model.Status.PodRef =
            some { Name := name, Namespace := twoImageModel.Namespace } ∧
          (updatePod exampleReconciler twoImageModel selectorPod twoImageStore).store.podAt
              { Namespace := twoImageModel.Namespace, Name := name } =
            some { podToCreate exampleReconciler twoImageModel with Name := name }) ∧
        (e ≠ none →
          (updatePod exampleReconciler twoImageModel selectorPod twoImageStore).model =
            twoImageModel))) :=
  ⟨by decide, by decide,
    C6_updatePod_recreates exampleReconciler twoImageModel selectorPod twoImageStore (by decide)⟩

/-! ## C7 -/

/-- C7: if a `reconcileNormal` pass succeeds, a second pass on the Model and the store
it left, whose lookup is answered from the store, succeeds, issues the Pod lookup and no
other call (no create, delete or update), and leaves the Model (`status.podRef`
included), the Pods and the Models of the store unchanged; the reason is that the Pod
named by `status.podRef` is stored and re-rendering it from the Model's spec gives the
spec it has. -/
theorem C7_second_pass_is_noop (r : ModelReconciler) (model : Model) (s : Store)
    (h1 : (reconcileNormal r model s).err = none)
    (hf : nextFault (reconcileNormal r model s).store.faults.getPod = none) :
    (reconcileNormal r (reconcileNormal r model s).model (reconcileNormal r model s).store).err
      = none ∧
    (reconcileNormal r (reconcileNormal r model s).model (reconcileNormal r model s).store).model
      = (reconcileNormal r model s).model ∧
    (reconcileNormal r (reconcileNormal r model s).model
        (reconcileNormal r model s).store).store.log =
      (reconcileNormal r model s).store.log ++
        [{ call := .getPod (lookupKey (reconcileNormal r model s).model), err := none }] ∧
    (reconcileNormal r (reconcileNormal r model s).model
        (reconcileNormal r model s).store).store.pods = (reconcileNormal r model s).store.pods ∧
    (reconcileNormal r (reconcileNormal r model s).model
        (reconcileNormal r model s).store).store.models =
      (reconcileNormal r model s).store.models ∧
    (∃ p, (reconcileNormal r model s).store.podAt (lookupKey (reconcileNormal r model s).model)
        = some p ∧
      (modelToPod r (reconcileNormal r model s).model p).Spec = p.Spec) := by
  obtain ⟨hfin, p, hn, hat, heq⟩ := reconcileNormal_converged r model s h1
  generalize reconcileNormal r model s = o1 at *
  rw [reconcileNormal_of_finalizer r o1.model o1.store hfin, reconcilePod_noop r o1.model o1.store p hf hn hat heq]
  exact ⟨rfl, rfl, rfl, rfl, rfl, p, hat, heq.symm⟩

/-- C7, applied to the first pass on the Model of the controller test and an empty
store. -/
theorem C7_second_pass_is_noop_witness :
    (reconcileNormal exampleReconciler exampleModel exampleStore).err = none ∧
    nextFault (reconcileNormal exampleReconciler exampleModel exampleStore).store.faults.getPod
      = none ∧
    (reconcileNormal exampleReconciler
        (reconcileNormal exampleReconciler exampleModel exampleStore).model
        (reconcileNormal exampleReconciler exampleModel exampleStore).store).store.pods =
      (reconcileNormal exampleReconciler exampleModel exampleStore).store.pods :=
  ⟨by decide, by decide,
    (C7_second_pass_is_noop exampleReconciler exampleModel exampleStore (by decide)
      (by decide)).2.2.2.1⟩

/-! ## C8 -/

/-- C8: when `status.podRef` is unset or names no Pod stored in the Model's namespace,
and the lookup is answered from the store, `reconcilePod` issues the lookup (answered
not-found) and then exactly one create, of a Pod in the Model's namespace with
`generateName` "<model name>-", no name, the owner reference to the Model as its only
one, and the rendered spec; it returns the error of the create; on success
`status.podRef` holds the generated non-empty name and the Model's namespace, and the
Pod is stored under it; on failure `status.podRef` and the stored Pods are unchanged. -/
theorem C8_reconcilePod_create_path (r : ModelReconciler) (model : Model) (s : Store)
    (hf : nextFault s.faults.getPod = none)
    (h : model.Status.PodRef = none ∨
      ∃ ref, model.Status.PodRef = some ref ∧
        s.podAt { Namespace := model.Namespace, Name := ref.Name } = none) :
    ∃ e : Option Err,
      (reconcilePod r model s).store.log =
        s.log ++ [{ call := .getPod (lookupKey model), err := some .notFound },
                  { call := .createPod (podToCreate r model), err := e }] ∧
      (podToCreate r model).Namespace = model.Namespace ∧
      (podToCreate r model).Name = "" ∧
      (podToCreate r model).GenerateName = model.Name ++ "-" ∧
      (podToCreate r model).OwnerReferences = [ownerRefOf r model] ∧
      (ownerRefOf r model).Name = model.Name ∧ (ownerRefOf r model).UID = model.UID ∧
      (podToCreate r model).Spec = render r model ∧
      (reconcilePod r model s).err = e ∧
      (e = none → ∃ name : String, name ≠ "" ∧
        (reconcilePod r model s).model.Status.PodRef =
          some { Name := name, Namespace := model.Namespace } ∧
        (reconcilePod r model s).store.podAt { Namespace := model.Namespace, Name := name } =
          some { podToCreate r model with Name := name }) ∧
      (e ≠ none → (reconcilePod r model s).model.Status.PodRef = model.Status.PodRef ∧
        (reconcilePod r model s).store.pods = s.pods) := by
  obtain ⟨hns, hnm, hgn, hor⟩ := podToCreate_meta r model
  have hkey : (lookupKey model).Name = "" ∨ s.podAt (lookupKey model) = none := by
    rcases h with h | ⟨ref, h, hmiss⟩
    · left; simp [lookupKey, h]
    · right; simpa [lookupKey, h] using hmiss
  have hget := GetPod_miss s (lookupKey model) Pod.empty hf hkey
  have hrp : reconcilePod r model s =
      createPod r model (s.GetPod (lookupKey model) Pod.empty).2.2 := by
    rw [reconcilePod_eq, hget]
    simp [IsNotFound]
  rw [hrp]
  generalize hs1 : (s.GetPod (lookupKey model) Pod.empty).2.2 = s1
  have hs1log : s1.log = s.log ++ [{ call := .getPod (lookupKey model), err := some .notFound }] := by
    rw [← hs1, hget]; rfl
  have hs1pods : s1.pods = s.pods := by rw [← hs1, hget]; rfl
  obtain ⟨e, hlog, herr, hok, hfail⟩ := createPod_outcome r model s1
  refine ⟨e, ?_, hns, hnm, hgn, hor, rfl, rfl, podToCreate_spec r model, herr, ?_, ?_⟩
  · rw [hlog, hs1log]; simp
  · intro he
    obtain ⟨name, hne, hm, hat, _, _⟩ := hok he
    exact ⟨name, hne, by rw [hm], hat⟩
  · intro he
    obtain ⟨hm, hp⟩ := hfail he
    exact ⟨by rw [hm], by rw [hp, hs1pods]⟩

/-- C8, applied to the Model of the controller test and an empty store. -/
theorem C8_reconcilePod_create_path_witness :
    nextFault exampleStore.faults.getPod = none ∧
    exampleModel.Status.PodRef = none ∧
    ∃ e : Option Err,
      (reconcilePod exampleReconciler exampleModel exampleStore).store.log =
        exampleStore.log ++
          [{ call := .getPod (lookupKey exampleModel), err := some .notFound },
           { call := .createPod (podToCreate exampleReconciler exampleModel), err := e }] ∧
      (podToCreate exampleReconciler exampleModel).Namespace = exampleModel.Namespace ∧
      (podToCreate exampleReconciler exampleModel).Name = "" ∧
      (podToCreate exampleReconciler exampleModel).GenerateName = exampleModel.Name ++ "-" ∧
      (podToCreate exampleReconciler exampleModel).OwnerReferences =
        [ownerRefOf exampleReconciler exampleModel] ∧
      (ownerRefOf exampleReconciler exampleModel).Name = exampleModel.Name ∧
      (ownerRefOf exampleReconciler exampleModel).UID = exampleModel.UID ∧
      (podToCreate exampleReconciler exampleModel).Spec =
        render exampleReconciler exampleModel ∧
      (reconcilePod exampleReconciler exampleModel exampleStore).err = e ∧
      (e = none → ∃ name : String, name ≠ "" ∧
        (reconcilePod exampleReconciler exampleModel exampleStore).model.Status.PodRef =
          some { Name := name, Namespace := exampleModel.Namespace } ∧
        (reconcilePod exampleReconciler exampleModel exampleStore).store.podAt
            { Namespace := exampleModel.Namespace, Name := name } =
          some { podToCreate exampleReconciler exampleModel with Name := name }) ∧
      (e ≠ none →
        (reconcilePod exampleReconciler exampleModel exampleStore).model.Status.PodRef =
          exampleModel.Status.PodRef ∧
        (reconcilePod exampleReconciler exampleModel exampleStore).store.pods =
          exampleStore.pods) :=
  ⟨by decide, rfl,
    C8_reconcilePod_create_path exampleReconciler exampleModel exampleStore (by decide)
      (Or.inl rfl)⟩

/-! ## C9 -/

/-- C9: on the failing input (a Pod whose only owner reference has Kind `ModelSet`
and the API version of the operator's group) `podToModel` returns a key for that
reference, although its Kind is not `Model`: a reference is skipped only when both
its Kind and its API version differ. -/
theorem C9_key_for_non_model_owner :
    modelSetOwnedPod.OwnerReferences.map (fun o => o.Kind) = ["ModelSet"] ∧
    podToModel "ollama.sivchari.io/v1alpha1" modelSetOwnedPod =
      [{ NamespacedName := { Namespace := "default", Name := "set" } }] := by
  decide

/-! ## C10 -/

/-- C10: `Reconcile` returns an error exactly when the initial read fails with an
error other than not-found, or the step it runs (`reconcileDelete` when the deletion
timestamp is set, `reconcileNormal` otherwise) returns an error; on a not-found read
it returns success and the store has received the read and nothing else; and whatever
outcomes the two deferred patches meet, the returned error is the same. -/
theorem C10_reconcile_result (r : ModelReconciler) (req : Request) (s : Store) :
    ((Reconcile r req s).1 ≠ none ↔
      ((∃ e, (s.GetModel req.NamespacedName Model.empty).1 = some e ∧ e ≠ Err.notFound) ∨
       ((s.GetModel req.NamespacedName Model.empty).1 = none ∧
        (if (s.GetModel req.NamespacedName Model.empty).2.1.DeletionTimestamp.isSome then
          (reconcileDelete r (s.GetModel req.NamespacedName Model.empty).2.1
            (s.GetModel req.NamespacedName Model.empty).2.2).err
         else
          (reconcileNormal r (s.GetModel req.NamespacedName Model.empty).2.1
            (s.GetModel req.NamespacedName Model.empty).2.2).err) ≠ none))) ∧
    ((s.GetModel req.NamespacedName Model.empty).1 = some Err.notFound →
      (Reconcile r req s).1 = none ∧
      (Reconcile r req s).2.log =
        s.log ++ [{ call := .getModel req.NamespacedName, err := some Err.notFound }] ∧
      (Reconcile r req s).2.models = s.models ∧
      (Reconcile r req s).2.pods = s.pods) ∧
    (∀ qs qm : List (Option Err),
      (Reconcile r req (s.withPatchFaults qs qm)).1 = (Reconcile r req s).1) := by
  refine ⟨?_, ?_, ?_⟩
  · rw [Reconcile_eq]
    rcases hg : (s.GetModel req.NamespacedName Model.empty).1 with _ | e
    · by_cases hd : (s.GetModel req.NamespacedName Model.empty).2.1.DeletionTimestamp.isSome = true
      · simp [hd]
      · simp [hd]
    · cases e <;> simp [IgnoreNotFound, IsNotFound]
  · intro hg
    obtain ⟨hl, hm, hp⟩ := GetModel_err s req.NamespacedName Model.empty _ hg
    rw [Reconcile_eq]
    simp only [hg]
    exact ⟨rfl, hl, hm, hp⟩
  · intro qs qm
    rw [Reconcile_eq, Reconcile_eq, GetModel_withPatchFaults]
    rcases hg : (s.GetModel req.NamespacedName Model.empty).1 with _ | e
    · by_cases hd : (s.GetModel req.NamespacedName Model.empty).2.1.DeletionTimestamp.isSome = true
      · simp only [hd, if_true, reconcileDelete_withPatchFaults]; rfl
      · simp only [hd, if_false, reconcileNormal_withPatchFaults]; rfl
    · rfl

/-! ## C11 -/

/-- C11: for a Model that carries the finalizer, if the Pod lookup of `reconcileDelete`
fails with an error other than not-found, that error is returned, the Model (its
finalizer list included) is unchanged and the lookup is the only call issued, so no
delete; if the lookup succeeds or reports not-found and the Pod delete fails with an
error other than not-found, that error is returned and the Model is unchanged. -/
theorem C11_teardown_error_keeps_finalizer (r : ModelReconciler) (model : Model) (s : Store)
    (hfin : ContainsFinalizer model ModelFinalizer = true) :
    (∀ e : Err,
      (s.GetPod { Namespace := model.Namespace, Name := model.Name } Pod.empty).1 = some e →
      e ≠ Err.notFound →
        (reconcileDelete r model s).err = some e ∧
        (reconcileDelete r model s).model = model ∧
        (reconcileDelete r model s).model.Finalizers = model.Finalizers ∧
        (reconcileDelete r model s).store.log =
          s.log ++ [{ call := .getPod { Namespace := model.Namespace, Name := model.Name },
                      err := some e }]) ∧
    (∀ e : Err,
      ((s.GetPod { Namespace := model.Namespace, Name := model.Name } Pod.empty).1 = none ∨
       (s.GetPod { Namespace := model.Namespace, Name := model.Name } Pod.empty).1 =
          some Err.notFound) →
      ((s.GetPod { Namespace := model.Namespace, Name := model.Name } Pod.empty).2.2.DeletePod
        (s.GetPod { Namespace := model.Namespace, Name := model.Name } Pod.empty).2.1).1 =
          some e →
      e ≠ Err.notFound →
        (reconcileDelete r model s).err = some e ∧
        (reconcileDelete r model s).model = model ∧
        (reconcileDelete r model s).model.Finalizers = model.Finalizers ∧
        ContainsFinalizer (reconcileDelete r model s).model ModelFinalizer = true) := by
  have hno : ∀ e : Err, e ≠ Err.notFound → otherThanNotFound (some e) = true := by
    intro e he
    cases e <;> simp [otherThanNotFound, IsNotFound] at he ⊢
  constructor
  · intro e hg he
    have hl := GetPod_log s { Namespace := model.Namespace, Name := model.Name } Pod.empty
    simp only [reconcileDelete, hfin, Bool.not_true, Bool.false_eq_true, if_false, hg, hno e he,
      if_true]
    rw [hg] at hl
    exact ⟨trivial, trivial, trivial, hl⟩
  · intro e hg hd he
    have hg' : otherThanNotFound
        (s.GetPod { Namespace := model.Namespace, Name := model.Name } Pod.empty).1 = false := by
      rcases hg with hg | hg <;> rw [hg] <;> simp [otherThanNotFound, IsNotFound]
    simp only [reconcileDelete, hfin, Bool.not_true, Bool.false_eq_true, if_false, hg', hd,
      hno e he, if_true]
    exact ⟨trivial, trivial, trivial, trivial⟩

/-- C11, applied to a lookup that times out and to a delete that meets a conflict. -/
theorem C11_teardown_error_keeps_finalizer_witness :
    ContainsFinalizer deletingModel ModelFinalizer = true ∧
    (failingLookupStore.GetPod
      { Namespace := deletingModel.Namespace, Name := deletingModel.Name } Pod.empty).1 =
      some (Err.other "timeout") ∧
    ((reconcileDelete exampleReconciler deletingModel failingLookupStore).err =
        some (Err.other "timeout") ∧
      (reconcileDelete exampleReconciler deletingModel failingLookupStore).model =
        deletingModel ∧
      (reconcileDelete exampleReconciler deletingModel failingLookupStore).model.Finalizers =
        deletingModel.Finalizers ∧
      (reconcileDelete exampleReconciler deletingModel failingLookupStore).store.log =
        failingLookupStore.log ++
          [{ call := .getPod
                { Namespace := deletingModel.Namespace, Name := deletingModel.Name },
             err := some (Err.other "timeout") }]) ∧
    ((reconcileDelete exampleReconciler deletingModel failingDeleteStore).err =
        some (Err.other "conflict") ∧
      (reconcileDelete exampleReconciler deletingModel failingDeleteStore).model =
        deletingModel ∧
      (reconcileDelete exampleReconciler deletingModel failingDeleteStore).model.Finalizers =
        deletingModel.Finalizers ∧
      ContainsFinalizer (reconcileDelete exampleReconciler deletingModel failingDeleteStore).model
        ModelFinalizer = true) :=
  ⟨by decide, by decide,
    (C11_teardown_error_keeps_finalizer exampleReconciler deletingModel failingLookupStore
      (by decide)).1 (Err.other "timeout") (by decide) (by decide),
    (C11_teardown_error_keeps_finalizer exampleReconciler deletingModel failingDeleteStore
      (by decide)).2 (Err.other "conflict") (by decide) (by decide) (by decide)⟩

/-! ## C12 -/

/-- C12: whatever the Model and the Pod rendered onto, the rendered Pod spec has
exactly one container: named `ollama-server`, with args `["serve"]`, the one TCP port
11434, the one environment variable `OLLAMA_HOST` = `0.0.0.0:11434`, and the image
`OllamaContainerImage` of the reconciler when that is non-empty and
`ollama/ollama:latest` otherwise; the image is the same for any two Models and Pods. -/
theorem C12_rendered_container (r : ModelReconciler) (model : Model) (pod : Pod) :
    (∃ c : Container,
      (modelToPod r model pod).Spec.Containers = [c] ∧
      c.Name = "ollama-server" ∧
      c.Args = ["serve"] ∧
      c.Ports = [{ Name := "ollama-server", ContainerPort := 11434, Protocol := "TCP" }] ∧
      c.Env = [{ Name := "OLLAMA_HOST", Value := "0.0.0.0:11434" }] ∧
      (r.OllamaContainerImage ≠ "" → c.Image = r.OllamaContainerImage) ∧
      (r.OllamaContainerImage = "" → c.Image = "ollama/ollama:latest")) ∧
    (∀ (model2 : Model) (pod2 : Pod),
      (modelToPod r model pod).Spec.Containers.map (fun c => c.Image) =
        (modelToPod r model2 pod2).Spec.Containers.map (fun c => c.Image)) := by
  constructor
  · by_cases hi : r.OllamaContainerImage = "" <;> simp [modelToPod, hi]
  · intro model2 pod2
    simp [modelToPod]

/-! ## C13 -/

/-- C13: a `reconcileNormal` pass that returns success leaves the Model with the
finalizer; when the finalizer was absent, the first call of the pass is the update of
the Model with the finalizer added, every later call is a Pod call, and if the update
fails its error is returned and no other call is issued; when the finalizer was present,
the pass issues Pod calls only (no update) and the finalizer list is unchanged. -/
theorem C13_finalizer_ensured (r : ModelReconciler) (model : Model) (s : Store) :
    ((reconcileNormal r model s).err = none →
      ContainsFinalizer (reconcileNormal r model s).model ModelFinalizer = true) ∧
    (ContainsFinalizer model ModelFinalizer = false →
      ContainsFinalizer (AddFinalizer model ModelFinalizer) ModelFinalizer = true ∧
      ∃ (e : Option Err) (evs : List Event),
        (reconcileNormal r model s).store.log =
          s.log ++ [{ call := .updateModel (AddFinalizer model ModelFinalizer), err := e }]
            ++ evs ∧
        evs.all Event.isPodCall = true ∧
        (e ≠ none → (reconcileNormal r model s).err = e ∧ evs = [])) ∧
    (ContainsFinalizer model ModelFinalizer = true →
      (∃ evs : List Event, (reconcileNormal r model s).store.log = s.log ++ evs ∧
        evs.all Event.isPodCall = true) ∧
      (reconcileNormal r model s).model.Finalizers = model.Finalizers) := by
  refine ⟨fun h => (reconcileNormal_converged r model s h).1, ?_, ?_⟩
  · intro hfin
    refine ⟨containsFinalizer_addFinalizer model ModelFinalizer, ?_⟩
    rw [reconcileNormal_of_no_finalizer r model s hfin]
    have hu := UpdateModel_log s (AddFinalizer model ModelFinalizer)
    rcases hc : (s.UpdateModel (AddFinalizer model ModelFinalizer)).1 with _ | e
    · obtain ⟨evs, hlog, hall, _⟩ := reconcilePod_calls r
        (s.UpdateModel (AddFinalizer model ModelFinalizer)).2.1
        (s.UpdateModel (AddFinalizer model ModelFinalizer)).2.2
      refine ⟨none, evs, ?_, hall, fun h => absurd rfl h⟩
      show (reconcilePod r (s.UpdateModel (AddFinalizer model ModelFinalizer)).2.1
        (s.UpdateModel (AddFinalizer model ModelFinalizer)).2.2).store.log = _
      rw [hlog, hu, hc]
    · refine ⟨some e, [], ?_, rfl, fun _ => ⟨rfl, rfl⟩⟩
      show (s.UpdateModel (AddFinalizer model ModelFinalizer)).2.2.log = _
      rw [hu, hc]; simp
  · intro hfin
    rw [reconcileNormal_of_finalizer r model s hfin]
    obtain ⟨evs, hlog, hall, hf⟩ := reconcilePod_calls r model s
    exact ⟨⟨evs, hlog, hall⟩, hf⟩

/-! ## C14 -/

/-- C14 (as stated, refuted): from a store in which the Model owns no Pod, two
`Reconcile` passes in which only the deferred status patch of the first fails leave two
live Pods whose owner reference names the Model: the reference to the first Pod was
never stored, so the second pass looked up the empty name and created another. -/
theorem C14_two_pods_after_lost_status_patch :
    lostStatusStore.ownedPods exampleRequest.NamespacedName = [] ∧
    (Reconcile exampleReconciler exampleRequest lostStatusStore).1 = none ∧
    (Reconcile exampleReconciler exampleRequest lostStatusStore).2.log.filterMap
      (fun e => e.err) = [Err.notFound, Err.other "conflict"] ∧
    ((Reconcile exampleReconciler exampleRequest lostStatusStore).2.ownedPods
      exampleRequest.NamespacedName).length = 1 ∧
    (Reconcile exampleReconciler exampleRequest
      (Reconcile exampleReconciler exampleRequest lostStatusStore).2).1 = none ∧
    ((Reconcile exampleReconciler exampleRequest
      (Reconcile exampleReconciler exampleRequest lostStatusStore).2).2.ownedPods
      exampleRequest.NamespacedName).map (fun p => p.Name) = ["m-0", "m-1"] := by
  decide

/-- C14 (amended): in every store reachable from one in which the Model owns no Pod, by
`Reconcile` passes on that Model whose deferred status patch is not failed by the server
and whose Pod lookup is not answered not-found by the server on its own, interleaved
with changes of the Model's spec and with any change of the outcomes the other store
calls will meet, at most one live Pod has an owner reference naming the Model. -/
theorem C14_at_most_one_owned_pod (r : ModelReconciler) (req : Request) (s0 s : Store)
    (h0 : s0.ownedPods req.NamespacedName = []) (hr : Reachable r req s0 s) :
    (s.ownedPods req.NamespacedName).length ≤ 1 :=
  (Reachable_PodInvariant r req s0 s h0 hr).1

/-- C14 (amended), at `exampleStore`: a pass, a change of the spec to two images, and a
second pass, which replaces the Pod. -/
theorem C14_at_most_one_owned_pod_witness :
    exampleStore.ownedPods exampleRequest.NamespacedName = [] ∧
    Reachable exampleReconciler exampleRequest exampleStore secondPassStore ∧
    (secondPassStore.ownedPods exampleRequest.NamespacedName).map (fun p => p.Name) =
      ["m-1"] ∧
    (secondPassStore.ownedPods exampleRequest.NamespacedName).length ≤ 1 := by
  have hr : Reachable exampleReconciler exampleRequest exampleStore secondPassStore :=
    Reachable.step respecStore secondPassStore
      (Reachable.step firstPassStore respecStore
        (Reachable.step exampleStore firstPassStore Reachable.init
          (Step.pass exampleStore (by decide) (by decide)))
        (Step.specChange firstPassStore twoImageModel.Spec))
      (Step.pass respecStore (by decide) (by decide))
  exact ⟨by decide, hr, by decide,
    C14_at_most_one_owned_pod exampleReconciler exampleRequest exampleStore secondPassStore
      (by decide) hr⟩

end OllamaOperator
